import Mathlib

/-!
Shallow embedding of the cumulogenesis reconciliation engine
(stelligent/cumulogenesis) and verification of the frozen claims.

The Python source represents organization entities as string-keyed ordered
dictionaries (see the unit tests in tests/unit and the docstring of
`cumulogenesis/models/aws_entities/organization.py`).  We model an ordered
dict as an association list `List (String × α)`; a Python dict can never
hold two entries with the same key, so theorems that depend on keyed lookup
take a `Nodup` hypothesis on the key list where needed.
-/

namespace Cumulogenesis

/-- First-match lookup in an association list (Python `d[k]` / `d.get(k)`). -/
def lookupKey (l : List (String × α)) (k : String) : Option α :=
  match l with
  | [] => none
  | p :: rest => if p.1 = k then some p.2 else lookupKey rest k

/-- Python `k in d`. -/
def containsKey (l : List (String × α)) (k : String) : Bool :=
  match l with
  | [] => false
  | p :: rest => if p.1 = k then true else containsKey rest k

/-- Python `d[k] = v`: overwrite in place if the key exists, else append. -/
def setKey (l : List (String × α)) (k : String) (v : α) : List (String × α) :=
  if containsKey l k then
    l.map (fun p => if p.1 = k then (p.1, v) else p)
  else
    l ++ [(k, v)]

/-- Keys of an association list. -/
def keysOf (l : List (String × α)) : List String := l.map Prod.fst

/-! ## Dynamic values

Configuration documents and policy documents are dynamically typed Python
values (strings, numbers, lists, ordered mappings, `None`). -/

/-- A Python value as it occurs in configuration and policy documents. -/
inductive CVal where
  | str : String → CVal
  | int : Int → CVal
  | bool : Bool → CVal
  | pynone : CVal
  | list : List CVal → CVal
  | dict : List (String × CVal) → CVal
deriving Repr, Inhabited

mutual

/-- Fueled equality in the sense of `helpers.deep_diff`
(`DeepDiff(..., ignore_order=True)` is empty): strings and numbers compare by
value, lists up to permutation, mappings key-wise regardless of key order.
The fuel only bounds the recursion depth; callers pass more fuel than the
structural depth of the values, so the fuel-exhausted `false` is never
reached. -/
def cvalEqU : Nat → CVal → CVal → Bool
  | 0, _, _ => false
  | _ + 1, .str a, .str b => a = b
  | _ + 1, .int a, .int b => a = b
  | _ + 1, .bool a, .bool b => a = b
  | _ + 1, .pynone, .pynone => true
  | fuel + 1, .list a, .list b => listPermEqU fuel a b
  | fuel + 1, .dict a, .dict b => dictEqU fuel a b
  | _ + 1, _, _ => false

/-- Unordered list equality: match each element of the first list against
some not-yet-matched element of the second. -/
def listPermEqU : Nat → List CVal → List CVal → Bool
  | _, [], ys => ys.isEmpty
  | 0, _ :: _, _ => false
  | fuel + 1, x :: xs, ys =>
    match removeFirstEq fuel x ys with
    | some ys' => listPermEqU fuel xs ys'
    | none => false

/-- Remove the first element of `ys` equal to `x`, if any. -/
def removeFirstEq : Nat → CVal → List CVal → Option (List CVal)
  | _, _, [] => none
  | fuel, x, y :: ys =>
    if cvalEqU fuel x y then some ys
    else (removeFirstEq fuel x ys).map (fun ys' => y :: ys')

/-- Key-wise mapping equality. -/
def dictEqU (fuel : Nat) (a b : List (String × CVal)) : Bool :=
  a.all (fun p =>
    match lookupKey b p.1 with
    | some v => cvalEqU fuel p.2 v
    | none => false)
  && b.all (fun p => containsKey a p.1)

end

mutual

/-- Structural depth of a value, used to pick sufficient fuel. -/
def cvalDepth : CVal → Nat
  | .str _ => 1
  | .int _ => 1
  | .bool _ => 1
  | .pynone => 1
  | .list l => cvalListDepth l + 1
  | .dict d => cvalDictDepth d + 1

def cvalListDepth : List CVal → Nat
  | [] => 0
  | x :: xs => max (cvalDepth x) (cvalListDepth xs)

def cvalDictDepth : List (String × CVal) → Nat
  | [] => 0
  | p :: ps => max (cvalDepth p.2) (cvalDictDepth ps)

end

/-- Whether `helpers.deep_diff(d1, d2)` is empty (no differences). -/
def deep_diff_empty (d1 d2 : List (String × CVal)) : Bool :=
  cvalEqU (cvalDepth (.dict d1) + cvalDepth (.dict d2) + 1) (.dict d1) (.dict d2)

/-! ## Entity records

Embedding of the dict-shaped entities consumed by
`cumulogenesis/models/aws_entities/organization.py`.  List-valued dict keys
that the model always reads (directly or through `.get(key, [])`) are plain
`List String` fields; the `policies` key, which is genuinely absent on
AWS-loaded entities until `_add_policy_to_target` creates it, and the
`account_id` key, absent on declared accounts without an `accountid`
parameter, are `Option` fields (`none` = key absent). -/

/-- Orgunit entity dict (see the Orgunit schema in the Organization
docstring and `tests/unit/models/aws_entities/test_organization.py`). -/
structure Orgunit where
  name : String
  child_orgunits : List String := []
  accounts : List String := []
  policies : Option (List String) := none
  parent_references : List String := []
  id : Option String := none
deriving Repr, DecidableEq

/-- Account entity dict. -/
structure Account where
  name : String
  owner : String := ""
  account_id : Option String := none
  policies : Option (List String) := none
  parent_references : List String := []
deriving Repr, DecidableEq

/-- Policy entity dict.  `description` and `document` are `Option` because
`_render_comparable_entity` copies an attribute only when its key is present;
`aws_managed` conflates an absent key with `False`, exactly as the source's
truthiness test `.get('aws_managed', None)` does. -/
structure PolicyEntity where
  name : String
  description : Option String := none
  document : Option CVal := none
  aws_managed : Bool := false
  id : Option String := none
deriving Repr, Inhabited

/-- Stack resource dict (only the keys `_validate_stackset` reads). -/
structure StackSet where
  name : String
  accounts : List String := []
  orgunits : List String := []
deriving Repr, DecidableEq

/-- The Organization aggregate (`Organization.__init__`), restricted to the
attributes the verified operations read. -/
structure Organization where
  root_account_id : String
  featureset : Option String := none
  accounts : List (String × Account) := []
  orgunits : List (String × Orgunit) := []
  policies : List (String × PolicyEntity) := []
  -- the source attribute is named `stacks`; that word is a reserved token here
  stacksets : List (String × StackSet) := []
  root_policies : List String := []
  root_parent_id : Option String := none
  orgExists : Bool := true
deriving Repr, Inhabited

/-- Embeds `Organization._policies_aws_managed`. -/
def policies_aws_managed : List String := ["FullAWSAccess"]

/-! ## Validator (`Organization.validate` and helpers) -/

/-- Append `parentKey` to the `parent_references` of the orgunit stored
under key `child` (`self.orgunits[child]['parent_references'].append(orgunit)`;
a Python dict holds one entry per key). -/
def appendOrgunitRef (ous : List (String × Orgunit)) (child parentKey : String) :
    List (String × Orgunit) :=
  ous.map (fun p =>
    (p.1, if p.1 = child
          then { p.2 with parent_references := p.2.parent_references ++ [parentKey] }
          else p.2))

/-- Append `ouName` to the `parent_references` of the account stored under
key `accountName` (`self.accounts[account_name]['parent_references'].append(orgunit['name'])`). -/
def appendAccountRef (accs : List (String × Account)) (accountName ouName : String) :
    List (String × Account) :=
  accs.map (fun p =>
    (p.1, if p.1 = accountName
          then { p.2 with parent_references := p.2.parent_references ++ [ouName] }
          else p.2))

/-- Embeds `Organization._generate_orgunit_parent_references`: reset every orgunit's
`parent_references` to `[]`, then for each orgunit key (in dict order) and each
entry of its `child_orgunits`, if the entry is a known orgunit key, append this
orgunit's key to the child's `parent_references`.  The Python loop reads the
live `self.orgunits` while mutating it, but the mutation only touches
`parent_references`, so the keys and `child_orgunits` lists it reads always
coincide with the input's. -/
def generate_orgunit_parent_references (m : Organization) : Organization :=
  let reset := m.orgunits.map (fun p => (p.1, { p.2 with parent_references := [] }))
  let result := m.orgunits.foldl
    (fun (ous : List (String × Orgunit)) entry =>
      entry.2.child_orgunits.foldl
        (fun acc child =>
          if containsKey m.orgunits child then appendOrgunitRef acc child entry.1 else acc)
        ous)
    reset
  { m with orgunits := result }

/-- Embeds `Organization._initialize_account_parent_references`. -/
def initialize_account_parent_references (accs : List (String × Account)) :
    List (String × Account) :=
  accs.map (fun p => (p.1, { p.2 with parent_references := [] }))

/-- Embeds `Organization._validate_policies_on_entity`: append a problem for each
listed policy that is neither a known policy nor AWS managed. -/
def validate_policies_on_entity (m : Organization) (entityPolicies : List String)
    (problems : List String) : List String :=
  entityPolicies.foldl
    (fun ps policy =>
      if ¬ containsKey m.policies policy ∧ policy ∉ policies_aws_managed
      then ps ++ ["references missing policy " ++ policy]
      else ps)
    problems

/-- Embeds `Organization._validate_orgunit`: returns this orgunit's problem list and
the accounts dict with this orgunit's name appended to the
`parent_references` of each known listed account.  The membership test
`account_name in self.accounts` reads the live accounts dict (`accs`), which
is threaded through the orgunit loop. -/
def validate_orgunit (m : Organization) (accs : List (String × Account))
    (ou : Orgunit) : List String × List (String × Account) :=
  let probs1 := ou.child_orgunits.foldl
    (fun ps child =>
      if ¬ containsKey m.orgunits child
      then ps ++ ["references missing child orgunit " ++ child]
      else ps)
    []
  let step := ou.accounts.foldl
    (fun (st : List String × List (String × Account)) account_name =>
      if ¬ containsKey st.2 account_name
      then (st.1 ++ ["references missing account " ++ account_name], st.2)
      else (st.1, appendAccountRef st.2 account_name ou.name))
    (probs1, accs)
  (validate_policies_on_entity m (ou.policies.getD []) step.1, step.2)

/-- Embeds `Organization._validate_orgunits`: reset account `parent_references`, then
validate each orgunit in dict order, collecting a problems dict keyed by
orgunit key and threading the accounts dict. -/
def validate_orgunits (m : Organization) :
    List (String × List String) × List (String × Account) :=
  m.orgunits.foldl
    (fun (st : List (String × List String) × List (String × Account)) entry =>
      let r := validate_orgunit m st.2 entry.2
      (if r.1 = [] then st.1 else st.1 ++ [(entry.1, r.1)], r.2))
    ([], initialize_account_parent_references m.accounts)

/-- Embeds `Organization._validate_account`.  In the source,
`account.get('account_id', None) == self.root_account_id` holds exactly when
the `account_id` key is present and equals the root account id (Python `None`
never equals a string). -/
def validate_account (m : Organization) (acc : Account) : List String :=
  let probs :=
    if acc.parent_references = [] ∧ ¬ acc.account_id = some m.root_account_id then
      ["orphaned"]
    else if acc.parent_references.length > 1 then
      ["referenced as a child of multiple orgunits: "
        ++ String.intercalate ", " acc.parent_references]
    else []
  validate_policies_on_entity m (acc.policies.getD []) probs

/-- Embeds `Organization._validate_accounts`. -/
def validate_accounts (m : Organization) : List (String × List String) :=
  m.accounts.foldl
    (fun pm entry =>
      let r := validate_account m entry.2
      if r = [] then pm else pm ++ [(entry.1, r)])
    []

/-- Embeds `Organization._validate_stackset`. -/
def validate_stackset (m : Organization) (st : StackSet) : List String :=
  let probs1 := st.accounts.foldl
    (fun ps account =>
      if ¬ containsKey m.accounts account
      then ps ++ ["references missing account " ++ account]
      else ps)
    []
  st.orgunits.foldl
    (fun ps orgunit =>
      if ¬ containsKey m.orgunits orgunit
      then ps ++ ["references missing orgunit " ++ orgunit]
      else ps)
    probs1

/-- Embeds `Organization._validate_stacksets`. -/
def validate_stacksets (m : Organization) : List (String × List String) :=
  m.stacksets.foldl
    (fun pm entry =>
      let r := validate_stackset m entry.2
      if r = [] then pm else pm ++ [(entry.1, r)])
    []

/-- The problems dict returned by `Organization.validate` (a category key is
present only when its sub-dict is non-empty). -/
abbrev Problems := List (String × List (String × List String))

/-- Embeds `Organization.validate`.  The Python method mutates `self` (it populates
`parent_references`) and returns the problems dict; we model it as returning
the problems dict together with the mutated model.  The source contains no
cycle detection over `child_orgunits` and never raises
`OrgunitHierarchyCycleException` (that exception class is declared in
`cumulogenesis/exceptions.py` but is raised nowhere; the `_find_path` helper
invoked by `testing-orgunit-graphs.py` does not exist on `Organization`). -/
def validate (m : Organization) : Problems × Organization :=
  let m1 := generate_orgunit_parent_references m
  let r := validate_orgunits m1
  let m2 := { m1 with accounts := r.2 }
  let accProbs := validate_accounts m2
  let stackProbs := validate_stacksets m2
  let problems :=
    (if r.1 = [] then [] else [("orgunits", r.1)])
      ++ (if accProbs = [] then [] else [("accounts", accProbs)])
      ++ (if stackProbs = [] then [] else [("stacks", stackProbs)])
  (problems, m2)

/-! ## Hierarchy resolver (`Organization.get_orgunit_hierarchy` and helpers) -/

/-- A node of the nested hierarchy dict built by `Organization._append_path`:
the `orgunits` key is present iff the orgunit's `child_orgunits` is truthy
(non-empty), and the `accounts` key iff its `accounts` is truthy. -/
inductive HNode where
  | node : Option (List (String × HNode)) → Option (List String) → HNode
deriving Repr

/-- Embeds `Organization._append_path`, which recursively descends through
`child_orgunits` looking each child up by name.  The Python recursion is
unbounded (it diverges on a cyclic hierarchy and raises `KeyError` on a child
name that is not an orgunit key); we bound it with fuel and return an empty
node in those two unreachable-for-valid-models situations. -/
def append_path (m : Organization) : Nat → String → HNode
  | 0, _ => HNode.node none none
  | fuel + 1, orgunit_name =>
    match lookupKey m.orgunits orgunit_name with
    | none => HNode.node none none
    | some ou =>
      let ouChildren :=
        if ou.child_orgunits ≠ [] then
          some (ou.child_orgunits.map (fun child => (child, append_path m fuel child)))
        else none
      let ouAccounts := if ou.accounts ≠ [] then some ou.accounts else none
      HNode.node ouChildren ouAccounts

/-- The hierarchy dict returned by `get_orgunit_hierarchy`:
`hierarchy['ROOT_ACCOUNT']['orgunits']` plus the optional sibling key
`ORPHANED_ACCOUNTS` (present only when the orphan list is non-empty). -/
structure Hierarchy where
  root_orgunits : List (String × HNode)
  orphaned_accounts : Option (List String)
deriving Repr

/-- Embeds `Organization._orgunits_to_hierarchy`: regenerate orgunit
`parent_references`, then place under `ROOT_ACCOUNT.orgunits` every orgunit
whose `parent_references` is empty, keyed by its `name` value, expanding each
with `_append_path`.  (Like the source, this reads the orgunit's `name`
field, not its dict key.) -/
def orgunits_to_hierarchy (m : Organization) : List (String × HNode) :=
  let m1 := generate_orgunit_parent_references m
  let top_level_orgunits :=
    (m1.orgunits.filter (fun p => p.2.parent_references = [])).map (fun p => p.2.name)
  top_level_orgunits.map (fun nm => (nm, append_path m1 m1.orgunits.length nm))

/-- Embeds `Organization._find_orphaned_accounts`: accounts whose
`parent_references` has length 0 and whose `account_id` is not the root
account id, by `name` value, in dict order. -/
def find_orphaned_accounts (m : Organization) : List String :=
  (m.accounts.filter
    (fun p => p.2.parent_references.length = 0 ∧ ¬ p.2.account_id = some m.root_account_id)).map
    (fun p => p.2.name)

/-- Embeds `Organization.get_orgunit_hierarchy`.  (The Python method also leaves the
regenerated orgunit `parent_references` behind on `self`; the claims under
verification only concern the returned dict.) -/
def get_orgunit_hierarchy (m : Organization) : Hierarchy :=
  let orphaned := find_orphaned_accounts m
  { root_orgunits := orgunits_to_hierarchy m
    orphaned_accounts := if orphaned ≠ [] then some orphaned else none }

/-! ## Differ (`Organization.compare_against_aws_model` and helpers) -/

/-- One entry of the action plan: `{"action": ..., "existing_entity"?,
"configured_entity"?}` from `_add_action_to_report`, or
`{"action": "associate", "parent": ...}` from `_add_association_to_report`. -/
structure ActionEntry where
  action : String
  existing_entity : Option (List (String × CVal)) := none
  configured_entity : Option (List (String × CVal)) := none
  parent : Option String := none
deriving Repr, Inhabited

/-- The part of the dry-run report that `compare_against_aws_model` builds:
`report['actions']` (action kind → entity name → action entry),
`report['unknown_accounts']` (created on demand) and `report['problems']`
(category → entity name → problem strings).  The echo keys
`configured_organization`, `actual_organization`, `configured_hierarchy` and
`actual_hierarchy` that the source also stores in the report are copies of
the inputs and are not modelled. -/
structure Report where
  actions : List (String × List (String × ActionEntry)) := []
  unknown_accounts : Option (List (String × List (String × CVal))) := none
  problems : List (String × List (String × List String)) := []
deriving Repr, Inhabited

/-- Embeds `Organization._add_action_to_report`.  The rendered comparable entities
passed as `old_value` / `new_value` always contain at least the `name` key,
so the source's truthiness test on them is modelled by the `Option` being
`some`. -/
def add_action_to_report (r : Report) (entity_type entity_name action : String)
    (old_value new_value : Option (List (String × CVal)) := none) : Report :=
  let acts :=
    if containsKey r.actions entity_type then r.actions else r.actions ++ [(entity_type, [])]
  { r with
    actions := acts.map (fun p =>
      if p.1 = entity_type then
        (p.1, setKey p.2 entity_name
          { action := action, existing_entity := old_value, configured_entity := new_value })
      else p) }

/-- Embeds `Organization._add_association_to_report`. -/
def add_association_to_report (r : Report) (entity_type entity_name parent_name : String) :
    Report :=
  let action_key := entity_type ++ "_associations"
  let acts :=
    if containsKey r.actions action_key then r.actions else r.actions ++ [(action_key, [])]
  { r with
    actions := acts.map (fun p =>
      if p.1 = action_key then
        (p.1, setKey p.2 entity_name { action := "associate", parent := some parent_name })
      else p) }

/-- Embeds `Organization._add_orphaned_account_problem_to_report`. -/
def add_orphaned_account_problem_to_report (r : Report) (account_name parent_name : String) :
    Report :=
  let probs :=
    if containsKey r.problems "accounts" then r.problems else r.problems ++ [("accounts", [])]
  let message :=
    account_name ++ " will be orphaned by the removal of parent orgunit " ++ parent_name
  { r with
    problems := probs.map (fun p =>
      if p.1 = "accounts" then
        (p.1,
          let entries := if containsKey p.2 account_name then p.2 else p.2 ++ [(account_name, [])]
          entries.map (fun q => if q.1 = account_name then (q.1, q.2 ++ [message]) else q))
      else p) }

/-- Embeds `Organization._render_comparable_entity` at
`_comparable_account_attributes = ['name', 'policies']`. -/
def render_comparable_account (a : Account) : List (String × CVal) :=
  [("name", .str a.name)]
    ++ (match a.policies with
        | some ps => [("policies", .list (ps.map .str))]
        | none => [])

/-- Embeds `Organization._render_comparable_entity` at
`_comparable_orgunit_attributes = ['name', 'policies']`. -/
def render_comparable_orgunit (ou : Orgunit) : List (String × CVal) :=
  [("name", .str ou.name)]
    ++ (match ou.policies with
        | some ps => [("policies", .list (ps.map .str))]
        | none => [])

/-- Embeds `Organization._render_comparable_entity` at
`_comparable_policy_attributes = ['name', 'description', 'document']`. -/
def render_comparable_policy (p : PolicyEntity) : List (String × CVal) :=
  [("name", .str p.name)]
    ++ (match p.description with
        | some d => [("description", .str d)]
        | none => [])
    ++ (match p.document with
        | some doc => [("document", doc)]
        | none => [])

/-- Embeds `Organization._get_association_for_account`: first parent reference, or
`'root'` when there are none.  (The source indexes
`org_model.accounts[account_name]` directly; callers only pass names present
in the dict.) -/
def get_association_for_account (m : Organization) (account_name : String) : String :=
  (((lookupKey m.accounts account_name).map Account.parent_references).getD []).headD "root"

/-- Embeds `Organization._get_association_for_orgunit`. -/
def get_association_for_orgunit (m : Organization) (orgunit_name : String) : String :=
  (((lookupKey m.orgunits orgunit_name).map Orgunit.parent_references).getD []).headD "root"

/-- Embeds `Organization._compare_account_associations`.  `decl` is `self`, `aws` is
`self.aws_model`.  In the second loop the source indexes
`['account_id']` directly (every AWS-loaded account carries it); an absent
`account_id` is modelled as differing from the root account id. -/
def compare_account_associations (decl aws : Organization) (r : Report) : Report :=
  let r1 := decl.accounts.foldl
    (fun r entry =>
      if entry.2.account_id = some decl.root_account_id then r
      else if ¬ containsKey aws.accounts entry.1 then
        add_association_to_report r "account" entry.1 (get_association_for_account decl entry.1)
      else
        let configured_parent := get_association_for_account decl entry.1
        let aws_parent := get_association_for_account aws entry.1
        if configured_parent ≠ aws_parent then
          add_association_to_report r "account" entry.1 configured_parent
        else r)
    r
  aws.accounts.foldl
    (fun r entry =>
      if entry.2.account_id = some decl.root_account_id then r
      else if ¬ containsKey decl.accounts entry.1 then
        let aws_parent := get_association_for_account aws entry.1
        if aws_parent ≠ "root" ∧ ¬ containsKey decl.orgunits aws_parent then
          add_orphaned_account_problem_to_report
            (add_association_to_report r "account" entry.1 "root") entry.1 aws_parent
        else r
      else r)
    r1

/-- Embeds `Organization._compare_accounts`. -/
def compare_accounts (decl aws : Organization) (r : Report) : Report :=
  let r1 := decl.accounts.foldl
    (fun r entry =>
      if ¬ containsKey aws.accounts entry.1 then
        let action := if entry.2.account_id.isSome then "invite" else "create"
        add_action_to_report r "accounts" entry.1 action
      else
        match lookupKey aws.accounts entry.1 with
        | some awsAccount =>
          let configured_account := render_comparable_account entry.2
          let aws_account := render_comparable_account awsAccount
          if ¬ deep_diff_empty configured_account aws_account then
            add_action_to_report r "accounts" entry.1 "update"
              (some aws_account) (some configured_account)
          else r
        | none => r)
    r
  let r2 := aws.accounts.foldl
    (fun r entry =>
      if ¬ containsKey decl.accounts entry.1 then
        let aws_account := render_comparable_account entry.2
        let unknown := (r.unknown_accounts.getD [])
        { r with unknown_accounts := some (setKey unknown entry.1 aws_account) }
      else r)
    r1
  compare_account_associations decl aws r2

/-- Embeds `Organization._compare_orgunit_associations`. -/
def compare_orgunit_associations (decl aws : Organization) (r : Report) : Report :=
  decl.orgunits.foldl
    (fun r entry =>
      if ¬ containsKey aws.orgunits entry.1 then
        add_association_to_report r "orgunit" entry.1 (get_association_for_orgunit decl entry.1)
      else
        let configured_parent := get_association_for_orgunit decl entry.1
        let aws_parent := get_association_for_orgunit aws entry.1
        if configured_parent ≠ aws_parent then
          add_association_to_report r "orgunit" entry.1 configured_parent
        else r)
    r

/-- Embeds `Organization._compare_orgunits`. -/
def compare_orgunits (decl aws : Organization) (r : Report) : Report :=
  let r1 := decl.orgunits.foldl
    (fun r entry =>
      if ¬ containsKey aws.orgunits entry.1 then
        add_action_to_report r "orgunits" entry.1 "create"
      else
        match lookupKey aws.orgunits entry.1 with
        | some awsOrgunit =>
          let configured_orgunit := render_comparable_orgunit entry.2
          let aws_orgunit := render_comparable_orgunit awsOrgunit
          if ¬ deep_diff_empty configured_orgunit aws_orgunit then
            add_action_to_report r "orgunits" entry.1 "update"
              (some aws_orgunit) (some configured_orgunit)
          else r
        | none => r)
    r
  let r2 := aws.orgunits.foldl
    (fun r entry =>
      if ¬ containsKey decl.orgunits entry.1 then
        add_action_to_report r "orgunits" entry.1 "delete"
      else r)
    r1
  compare_orgunit_associations decl aws r2

/-- Embeds `Organization._compare_policies`. -/
def compare_policies (decl aws : Organization) (r : Report) : Report :=
  let r1 := decl.policies.foldl
    (fun r entry =>
      if entry.2.aws_managed then r
      else if ¬ containsKey aws.policies entry.1 then
        add_action_to_report r "policies" entry.1 "create"
      else
        match lookupKey aws.policies entry.1 with
        | some awsPolicy =>
          let configured_policy := render_comparable_policy entry.2
          let aws_policy := render_comparable_policy awsPolicy
          if ¬ deep_diff_empty configured_policy aws_policy then
            add_action_to_report r "policies" entry.1 "update"
              (some aws_policy) (some configured_policy)
          else r
        | none => r)
    r
  aws.policies.foldl
    (fun r entry =>
      if ¬ containsKey decl.policies entry.1 then
        if entry.2.aws_managed then r
        else add_action_to_report r "policies" entry.1 "delete"
      else r)
    r1

/-- Embeds `Organization.get_organization_configuration`: the dict
`{"featureset": ..., "root_policies": ...}`.  Defined in the source but
invoked nowhere in the repository. -/
def get_organization_configuration (m : Organization) : Option String × List String :=
  (m.featureset, m.root_policies)

/-- Embeds `Organization.compare_against_aws_model` restricted to what it adds to
the report: `report['actions']` is freshly initialised; when the AWS model
does not exist the single `organizations/organization/create` action is
emitted and the method returns; otherwise accounts, orgunits and policies
are compared in that order.  No `organizations` action of any kind is
emitted when the AWS model exists.

The source also stores `self.get_orgunit_hierarchy()` and
`self.aws_model.get_orgunit_hierarchy()` in the report as echo keys; building
those hierarchies regenerates each model's orgunit `parent_references` as a
side effect, which the subsequent association comparisons observe, so the
embedding applies that regeneration up front. -/
def compare_against_aws_model (decl0 aws0 : Organization) : Report :=
  let decl := generate_orgunit_parent_references decl0
  let aws := generate_orgunit_parent_references aws0
  let r : Report := { actions := [] }
  if ¬ aws.orgExists then
    add_action_to_report r "organizations" "organization" "create"
  else
    compare_policies decl aws (compare_orgunits decl aws (compare_accounts decl aws r))

/-! ## Organization service (`cumulogenesis/services/organization.py`)

The boto3 client is an external collaborator; each service method takes the
provider's behaviour for the calls it makes as an explicit argument and
returns what the method returns, plus, where a claim concerns the calls
issued, the list of mutating calls. -/

/-- Python runtime errors the service code can raise outside the modelled
provider failures. -/
inductive PyErr where
  | keyError : String → PyErr
  | typeError : String → PyErr
  | indexError : PyErr
  | missingRequiredParameter : String → String → PyErr
  | parameterTypeMismatch : String → String → PyErr
  | multipleParametersSpecified : String → PyErr
  | duplicateNames : String → String → PyErr
deriving Repr, DecidableEq

/-- A `botocore.exceptions.ClientError`, carrying the provider error code. -/
structure ClientError where
  code : String
deriving Repr, DecidableEq

/-- A change dict such as `{'change': 'deleted', 'id': ...}`. -/
structure Change where
  change : String
  id : Option String := none
  reason : Option String := none
deriving Repr, DecidableEq

/-- Embeds `OrganizationService.delete_orgunit`: look up the orgunit id in the AWS
model (outside the `try`, so a missing name is a `KeyError`), issue the
delete, and return the change dict on success.  The `except` clause catches
every `botocore.exceptions.ClientError` — not only a not-found error — logs
it, and returns `None`; the unit test `test_delete_orgunit_error` asserts
this for an arbitrary client error.  Only non-`ClientError` exceptions
propagate. -/
def delete_orgunit (aws_orgunits : List (String × Orgunit)) (orgunit_name : String)
    (delete_response : String → Except ClientError Unit) :
    Except PyErr (Option Change) :=
  match lookupKey aws_orgunits orgunit_name with
  | none => .error (.keyError orgunit_name)
  | some ou =>
    match ou.id with
    | none => .error (.keyError "id")
    | some orgunit_id =>
      match delete_response orgunit_id with
      | .ok _ => .ok (some { change := "deleted", id := some orgunit_id })
      | .error _ => .ok none

/-- A `move_account` call issued to the provider.  The destination can be
Python `None` when `aws_model.root_parent_id` was never populated. -/
structure MoveCall where
  account_id : String
  source_parent_id : String
  dest_parent_id : Option String
deriving Repr, DecidableEq

/-- Destination-parent resolution at the top of
`OrganizationService.move_account`: the AWS model's root parent for
`'root'`, otherwise the id recorded for the named orgunit in the updated
model. -/
def resolve_dest_parent_id (aws updated : Organization) (parent_name : String) :
    Except PyErr (Option String) :=
  if parent_name = "root" then .ok aws.root_parent_id
  else
    match lookupKey updated.orgunits parent_name with
    | none => .error (.keyError parent_name)
    | some ou =>
      match ou.id with
      | none => .error (.keyError "id")
      | some i => .ok (some i)

/-- Embeds `OrganizationService.move_account`.  `parents_of` is the provider's
`list_parents` response (the parent ids for a child id).  Returns the
mutating calls issued and the returned change dict: when the first listed
parent already equals the destination, no `move_account` call is made and
the empty dict is returned; otherwise one move call is issued and
`{"action": "reassociated", "parent": dest}` is returned. -/
def move_account (aws updated : Organization) (account_name parent_name : String)
    (parents_of : String → List String) :
    Except PyErr (List MoveCall × List (String × CVal)) :=
  match resolve_dest_parent_id aws updated parent_name with
  | .error e => .error e
  | .ok dest_parent_id =>
    match lookupKey updated.accounts account_name with
    | none => .error (.keyError account_name)
    | some acc =>
      match acc.account_id with
      | none => .error (.keyError "account_id")
      | some account_id =>
        match parents_of account_id with
        | [] => .error .indexError
        | source_parent_id :: _ =>
          if dest_parent_id ≠ some source_parent_id then
            .ok ([{ account_id := account_id, source_parent_id := source_parent_id,
                    dest_parent_id := dest_parent_id }],
                 [("action", .str "reassociated"),
                  ("parent", match dest_parent_id with
                             | some d => .str d
                             | none => .pynone)])
          else .ok ([], [])

/-- A `CreateAccountStatus` response dict. -/
structure CreateAccountStatus where
  Id : String := ""
  State : String
  FailureReason : Option String := none
deriving Repr, DecidableEq

/-- The source's `if status == 'failed':` at the end of
`OrganizationService.create_accounts` compares the status response dict with
the string `'failed'`; in Python a dict never equals a string, so the test is
always false and the `FailureReason` attachment below it is dead code (the
unit test `test_create_accounts` accordingly expects `{"change": "failed"}`
with no `reason`). -/
def status_dict_equals_failed_string (_ : CreateAccountStatus) : Bool := false

/-- Embeds `OrganizationService._wait_on_account_creation`.  `describe` gives the
provider's `describe_create_account_status` response for a request id at
each poll round.  While any account is waiting the loop sleeps 15 seconds
(recorded in the returned trace) and re-describes every waiting account;
accounts leave the waiting list as soon as their state is not
`IN_PROGRESS`.  The Python loop is unbounded; `fuel` bounds the rounds and
is irrelevant whenever every account reaches a terminal state within `fuel`
rounds. -/
def wait_on_account_creation (describe : Nat → String → CreateAccountStatus) :
    Nat → Nat → List (String × CreateAccountStatus) → List String →
    List (String × CreateAccountStatus) × List Nat
  | 0, _, statuses, _ => (statuses, [])
  | fuel + 1, round, statuses, waiting =>
    if waiting.isEmpty then (statuses, [])
    else
      let statuses' := waiting.foldl
        (fun sts account =>
          match lookupKey sts account with
          | some st => setKey sts account (describe round st.Id)
          | none => sts)
        statuses
      let waiting' := waiting.filter
        (fun account =>
          match lookupKey statuses' account with
          | some st => st.State = "IN_PROGRESS"
          | none => false)
      let rec_result := wait_on_account_creation describe fuel (round + 1) statuses' waiting'
      (rec_result.1, 15 :: rec_result.2)

/-- Embeds `OrganizationService.create_accounts`: issue one `create_account` per
requested account (email and name from the organization's accounts dict),
wait for completion, then map each terminal state to a change:
`SUCCEEDED → created`, `FAILED → failed`, anything else → `unknown`.
Because `status_dict_equals_failed_string` is always false, no change ever
carries a `reason`.  Returns the changes dict and the trace of sleeps. -/
def create_accounts (org_accounts : List (String × Account)) (accounts : List String)
    (create_response : String → CreateAccountStatus)
    (describe : Nat → String → CreateAccountStatus) (fuel : Nat) :
    Except PyErr (List (String × Change) × List Nat) :=
  let statuses0 := accounts.foldl
    (fun (st : Except PyErr (List (String × CreateAccountStatus))) account =>
      match st with
      | .error e => .error e
      | .ok sts =>
        match lookupKey org_accounts account with
        | none => .error (.keyError account)
        | some _ => .ok (setKey sts account (create_response account)))
    (.ok [])
  match statuses0 with
  | .error e => .error e
  | .ok creation_statuses =>
    let waited := wait_on_account_creation describe fuel 0 creation_statuses
      (keysOf creation_statuses)
    let changes := waited.1.foldl
      (fun chs entry =>
        let change :=
          if entry.2.State = "SUCCEEDED" then "created"
          else if entry.2.State = "FAILED" then "failed"
          else "unknown"
        let base : Change := { change := change }
        let withReason :=
          if status_dict_equals_failed_string entry.2 then
            { base with reason := entry.2.FailureReason }
          else base
        chs ++ [(entry.1, withReason)])
      []
    .ok (changes, waited.2)

/-! ## Config loader
(`cumulogenesis/loaders/config_loaders/default_config_loader.py`)

The configuration document is a dynamically typed mapping (`CVal`).  The
loader builds entity class instances (`Account`, `Policy`,
`OrganizationalUnit`, `StackSet` from `cumulogenesis/models/aws_entities`);
a Python call `Cls(**mapping)` raises `TypeError` whenever the mapping
contains a key that is not a parameter of `Cls.__init__`. -/

/-- The Python type expected by a parameter schema entry. -/
inductive PyType where
  | strTy
  | listTy
  | dictTy
deriving Repr, DecidableEq

/-- Python `isinstance` for the types appearing in the loader schemas. -/
def isinstance : CVal → PyType → Bool
  | .str _, .strTy => true
  | .list _, .listTy => true
  | .dict _, .dictTy => true
  | _, _ => false

/-- One entry of a loader parameter schema
(`{'name': ..., 'type': ..., 'optional'?}`). -/
structure ParamSchema where
  name : String
  type : PyType
  optional : Bool := false

/-- Embeds `DefaultConfigLoader._account_parameters`. -/
def account_parameters : List ParamSchema :=
  [{ name := "name", type := .strTy },
   { name := "owner", type := .strTy },
   { name := "groups", type := .listTy, optional := true },
   { name := "accountid", type := .strTy, optional := true }]

/-- Embeds `DefaultConfigLoader._policy_parameters`. -/
def policy_parameters : List ParamSchema :=
  [{ name := "name", type := .strTy },
   { name := "description", type := .strTy },
   { name := "document", type := .dictTy }]

/-- Embeds `DefaultConfigLoader._policy_document_parameters`. -/
def policy_document_parameters : List ParamSchema :=
  [{ name := "location", type := .strTy },
   { name := "content", type := .dictTy }]

/-- Embeds `DefaultConfigLoader._orgunit_parameters`. -/
def orgunit_parameters : List ParamSchema :=
  [{ name := "name", type := .strTy },
   { name := "policies", type := .listTy, optional := true },
   { name := "accounts", type := .listTy, optional := true },
   { name := "orgunits", type := .listTy, optional := true }]

/-- Embeds `DefaultConfigLoader._validate_is_type`. -/
def validate_is_type (config : List (String × CVal)) (parameter parent : String)
    (expected_type : PyType) (optional : Bool := false) : Except PyErr Unit :=
  if ¬ optional ∧ ¬ containsKey config parameter then
    .error (.missingRequiredParameter parameter parent)
  else if containsKey config parameter
      ∧ ¬ isinstance ((lookupKey config parameter).getD .pynone) expected_type then
    .error (.parameterTypeMismatch parameter parent)
  else
    .ok ()

/-- Embeds `DefaultConfigLoader._validate_each_parameter`. -/
def validate_each_parameter (config : List (String × CVal)) (parent : String)
    (parameters : List ParamSchema) : Except PyErr Unit :=
  parameters.foldl
    (fun st parameter =>
      match st with
      | .error e => .error e
      | .ok _ =>
        validate_is_type config parameter.name parent parameter.type parameter.optional)
    (.ok ())

/-- Embeds `DefaultConfigLoader._validate_one_of_parameters`.  The source
intersects the schema names (a Python set) with the config keys: an empty
intersection raises `MissingRequiredParameter` (with parent hard-coded to
`'policy.document'`), more than one match raises
`MultipleParametersSpecified` (likewise hard-coded), and exactly one match
type-checks the single present parameter against the given `parent`. -/
def validate_one_of_parameters (config : List (String × CVal)) (parent : String)
    (parameters : List ParamSchema) : Except PyErr Unit :=
  let found := ((parameters.map ParamSchema.name).dedup).filter
    (fun n => containsKey config n)
  if found = [] then
    .error (.missingRequiredParameter
      (String.intercalate " or " (parameters.map ParamSchema.name).dedup) "policy.document")
  else if found.length > 1 then
    .error (.multipleParametersSpecified "policy.document")
  else
    match parameters.find? (fun p => decide (p.name ∈ found)) with
    | some parameter => validate_is_type config parameter.name parent parameter.type
    | none => .ok ()

/-- Accepted keyword parameters of `Policy.__init__`
(`cumulogenesis/models/aws_entities/policy.py`). -/
def policy_init_parameters : List String := ["name", "description", "document"]

/-- Accepted keyword parameters of `Account.__init__`
(`cumulogenesis/models/aws_entities/account.py`). -/
def account_init_parameters : List String := ["name", "owner", "groups", "accountid", "regions"]

/-- Accepted keyword parameters of `OrganizationalUnit.__init__`
(`cumulogenesis/models/aws_entities/orgunit.py`): note that
`parent_orgunit` is NOT among them. -/
def orgunit_init_parameters : List String := ["name", "policies", "accounts", "child_orgunits"]

/-- Python `Cls(**mapping)`: `TypeError` on the first keyword that is not a
parameter of `Cls.__init__`. -/
def construct_with_kwargs (accepted : List String) (mapping : List (String × CVal)) :
    Except PyErr (List (String × CVal)) :=
  match mapping.find? (fun p => decide (p.1 ∉ accepted)) with
  | some p => .error (.typeError p.1)
  | none => .ok mapping

/-- Embeds `DefaultConfigLoader._list_to_dict_by_names` (keyed by the instance
`name`, raising `DuplicateNamesException` on a repeat). -/
def list_to_dict_by_names (entity_list : List (List (String × CVal)))
    (entity_type : String) : Except PyErr (List (String × List (String × CVal))) :=
  entity_list.foldl
    (fun st item =>
      match st with
      | .error e => .error e
      | .ok dict_by_names =>
        let item_name :=
          match lookupKey item "name" with
          | some (CVal.str s) => s
          | _ => ""  -- unreachable: `name` is validated as a string before this
        if containsKey dict_by_names item_name then
          .error (.duplicateNames item_name entity_type)
        else
          .ok (dict_by_names ++ [(item_name, item)]))
    (.ok [])

/-- The body of the `for policy in config` loop of
`DefaultConfigLoader._load_policies`: validate the policy mapping against the
policy schema and its `document` against the one-of schema, then construct
`Policy(**policy)`. -/
def load_policy_entry (policyVal : CVal) : Except PyErr (List (String × CVal)) :=
  match policyVal with
  | .dict policy =>
    match validate_each_parameter policy "policy" policy_parameters with
    | .error e => .error e
    | .ok _ =>
      let documentDict :=
        match lookupKey policy "document" with
        | some (.dict d) => d
        | _ => []  -- unreachable: `document` was just validated as a mapping
      match validate_one_of_parameters documentDict "policy.document"
          policy_document_parameters with
      | .error e => .error e
      | .ok _ => construct_with_kwargs policy_init_parameters policy
  | _ => .error (.typeError "policy")

/-- Accumulate loop-body results, propagating the first raised exception. -/
def foldEntries (f : CVal → Except PyErr (List (String × CVal)))
    (config : List CVal) : Except PyErr (List (List (String × CVal))) :=
  config.foldl
    (fun st v =>
      match st with
      | .error e => .error e
      | .ok acc =>
        match f v with
        | .error e => .error e
        | .ok item => .ok (acc ++ [item]))
    (.ok [])

/-- Embeds `DefaultConfigLoader._load_policies`. -/
def load_policies (config : List CVal) :
    Except PyErr (List (String × List (String × CVal))) :=
  match foldEntries load_policy_entry config with
  | .error e => .error e
  | .ok policies => list_to_dict_by_names policies "policy"

/-- The body of the `for account in config` loop of
`DefaultConfigLoader._load_accounts`. -/
def load_account_entry (accountVal : CVal) : Except PyErr (List (String × CVal)) :=
  match accountVal with
  | .dict account =>
    match validate_each_parameter account "account" account_parameters with
    | .error e => .error e
    | .ok _ => construct_with_kwargs account_init_parameters account
  | _ => .error (.typeError "account")

/-- Embeds `DefaultConfigLoader._load_accounts`. -/
def load_accounts (config : List CVal) :
    Except PyErr (List (String × List (String × CVal))) :=
  match foldEntries load_account_entry config with
  | .error e => .error e
  | .ok accounts => list_to_dict_by_names accounts "account"

/-- Embeds `DefaultConfigLoader._load_orgunits_from_orgunit`, with fuel for the
recursion into nested `orgunits` lists.  For every orgunit mapping the
source deep-copies it, sets `parameters['parent_orgunit'] = parent_orgunit`,
pops the nested `orgunits` list (recursing first, children precede parents
in the result), and then calls `OrganizationalUnit(**parameters)` — whose
`__init__` does not accept `parent_orgunit`, so the construction of every
orgunit raises `TypeError`. -/
def load_orgunits_from_orgunit (fuel : Nat) (config : List CVal)
    (parent_orgunit : CVal) : Except PyErr (List (List (String × CVal))) :=
  match fuel with
  | 0 => .ok []
  | fuel + 1 =>
    config.foldl
      (fun (st : Except PyErr (List (List (String × CVal)))) orgunitVal =>
        match st with
        | .error e => .error e
        | .ok acc =>
          match orgunitVal with
          | .dict orgunit =>
            match validate_each_parameter orgunit "orgunit" orgunit_parameters with
            | .error e => .error e
            | .ok _ =>
              let orgunit_params0 := setKey orgunit "parent_orgunit" parent_orgunit
              let ouName := (lookupKey orgunit "name").getD .pynone
              let childResult :=
                if containsKey orgunit_params0 "orgunits" then
                  let child_config :=
                    match lookupKey orgunit_params0 "orgunits" with
                    | some (.list l) => l
                    | _ => []
                  load_orgunits_from_orgunit fuel child_config ouName
                else .ok []
              match childResult with
              | .error e => .error e
              | .ok children =>
                let orgunit_params :=
                  orgunit_params0.filter (fun p => p.1 ≠ "orgunits")
                match construct_with_kwargs orgunit_init_parameters orgunit_params with
                | .error e => .error e
                | .ok instantiated => .ok (acc ++ children ++ [instantiated])
          | _ => .error (.typeError "orgunit"))
      (.ok [])

/-- Embeds `DefaultConfigLoader._load_orgunits`. -/
def load_orgunits (config : List CVal) :
    Except PyErr (List (String × List (String × CVal))) :=
  match load_orgunits_from_orgunit (config.length + 1) config .pynone with
  | .error e => .error e
  | .ok orgunits => list_to_dict_by_names orgunits "orgunit"

/-- The organization object built by
`DefaultConfigLoader.load_organization_from_config` (the fields the
round-trip reads). -/
structure ConfigOrganization where
  root_account_id : CVal
  featureset : CVal
  accounts : List (String × List (String × CVal)) := []
  policies : List (String × List (String × CVal)) := []
  orgunits : List (String × List (String × CVal)) := []
deriving Repr, Inhabited

/-- Embeds `DefaultConfigLoader.load_organization_from_config`, covering the
entity collections (`provisioner` handling and the out-of-scope `stacks`
stub are independent of the claims under verification; `stacks` follows the
same `TypeError`-free path as policies for well-formed input).  A document
without a `root` key raises `KeyError`. -/
def load_organization_from_config (config : List (String × CVal)) :
    Except PyErr ConfigOrganization :=
  match lookupKey config "root" with
  | none => .error (.keyError "root")
  | some root =>
    let featureset := (lookupKey config "featureset").getD (.str "ALL")
    let accountsE :=
      match lookupKey config "accounts" with
      | some (.list l) => load_accounts l
      | some _ => .error (.typeError "accounts")
      | none => .ok []
    match accountsE with
    | .error e => .error e
    | .ok accounts =>
      let policiesE :=
        match lookupKey config "policies" with
        | some (.list l) => load_policies l
        | some _ => .error (.typeError "policies")
        | none => .ok []
      match policiesE with
      | .error e => .error e
      | .ok policies =>
        let orgunitsE :=
          match lookupKey config "orgunits" with
          | some (.list l) => load_orgunits l
          | some _ => .error (.typeError "orgunits")
          | none => .ok []
        match orgunitsE with
        | .error e => .error e
        | .ok orgunits =>
          .ok { root_account_id := root, featureset := featureset,
                accounts := accounts, policies := policies, orgunits := orgunits }

/-! ## Statement-level helpers and concrete claim inputs -/

/-- Replace an orgunit's `parent_references`. -/
def Orgunit.setRefs (ou : Orgunit) (refs : List String) : Orgunit :=
  { ou with parent_references := refs }

/-- Replace an account's `parent_references`. -/
def Account.setRefs (acc : Account) (refs : List String) : Account :=
  { acc with parent_references := refs }

/-- The orgunit dict keys that list `k` among their `child_orgunits`, in
dict order, one occurrence per listing: what
`_generate_orgunit_parent_references` accumulates for a known orgunit key. -/
def parent_orgunits_of (m : Organization) (k : String) : List String :=
  m.orgunits.flatMap
    (fun q => (q.2.child_orgunits.filter (fun c => c == k)).map (fun _ => q.1))

/-- The orgunit names that list `a` among their `accounts`, in dict order,
one occurrence per listing: what `_validate_orgunit` accumulates for a known
account key. -/
def referencing_orgunits (m : Organization) (a : String) : List String :=
  m.orgunits.flatMap
    (fun q => (q.2.accounts.filter (fun c => c == a)).map (fun _ => q.2.name))

/-- The problem list recorded for account `a` in a problems dict
(`problems['accounts'][a]`, `[]` when absent). -/
def accountProblems (problems : Problems) (a : String) : List String :=
  (lookupKey ((lookupKey problems "accounts").getD []) a).getD []

/-- An organization whose single orgunit lists itself in its own
`child_orgunits` — the cyclic-hierarchy input of the claims. -/
def self_cycle_org : Organization :=
  { root_account_id := "123456789",
    orgunits := [("a", { name := "a", child_orgunits := ["a"] })] }

/-- A declared model for the differ: featureset `ALL`, one root policy. -/
def c3_declared : Organization :=
  { root_account_id := "123456789", featureset := some "ALL",
    root_policies := ["deny-all"] }

/-- An actual (AWS) model that exists with a different featureset and no
root policies. -/
def c3_actual : Organization :=
  { root_account_id := "123456789", featureset := some "CONSOLIDATED_BILLING",
    orgExists := true }

/-- Accounts dict for the account-creation scenario. -/
def c4_org_accounts : List (String × Account) :=
  [("account_a", { name := "account_a", owner := "account_a@example.com" }),
   ("account_b", { name := "account_b", owner := "account_b@example.com" }),
   ("account_c", { name := "account_c", owner := "account_c@example.com" })]

/-- Embeds `create_account` responses: every request starts `IN_PROGRESS`. -/
def c4_create_response (account : String) : CreateAccountStatus :=
  { Id := "req-" ++ account, State := "IN_PROGRESS" }

/-- Embeds `describe_create_account_status` responses per poll round: `account_a`
is still in progress on the first poll and succeeds on the second;
`account_b` fails immediately with a `FailureReason`; `account_c` lands in
an unrecognised state. -/
def c4_describe_response : Nat → String → CreateAccountStatus
  | 0, "req-account_a" => { Id := "req-account_a", State := "IN_PROGRESS" }
  | _ + 1, "req-account_a" => { Id := "req-account_a", State := "SUCCEEDED" }
  | _, "req-account_b" =>
    { Id := "req-account_b", State := "FAILED",
      FailureReason := some "EMAIL_ALREADY_EXISTS" }
  | _, "req-account_c" => { Id := "req-account_c", State := "ERROR" }
  | _, rid => { Id := rid, State := "UNKNOWN" }

/-- AWS-model orgunits dict for the orgunit-deletion scenario. -/
def c5_aws_orgunits : List (String × Orgunit) :=
  [("ou_a", { name := "ou_a", id := some "ou-123456" })]

/-- The spec's valid end-to-end configuration document (scenario 1): root
`123456789`, featureset `ALL`, one orgunit `team-a` containing the account
`account_a` owned by `a@example.com`. -/
def c2_valid_config : List (String × CVal) :=
  [("root", .str "123456789"),
   ("featureset", .str "ALL"),
   ("accounts", .list [.dict [("name", .str "account_a"),
                              ("owner", .str "a@example.com")]]),
   ("orgunits", .list [.dict [("name", .str "team-a"),
                              ("accounts", .list [.str "account_a"])]])]

/-- A policy entry whose `document` carries both `location` and `content`. -/
def c8_both_policy : CVal :=
  .dict [("name", .str "policy_a"),
         ("description", .str "both keys"),
         ("document", .dict [("location", .str "policy.json"),
                             ("content", .dict [("Version", .str "2012-10-17")])])]

/-- A policy entry whose `document` carries neither `location` nor
`content`. -/
def c8_neither_policy : CVal :=
  .dict [("name", .str "policy_b"),
         ("description", .str "no keys"),
         ("document", .dict [("Version", .str "2012-10-17")])]

/-- The multiple-parents organization of the repo's `test_validate`: two
orgunits both list `shared` as a child account, and `orphan` is referenced
by nobody. -/
def two_parents_org : Organization :=
  { root_account_id := "123456789",
    orgunits :=
      [("ou_a", { name := "ou_a", accounts := ["shared"] }),
       ("ou_b", { name := "ou_b", accounts := ["shared"] })],
    accounts :=
      [("shared", { name := "shared" }),
       ("orphan", { name := "orphan" })] }

/-- Updated-model inputs for the account-move scenario. -/
def c10_updated : Organization :=
  { root_account_id := "123456789",
    accounts := [("account_a", { name := "account_a", account_id := some "987654321" })] }

/-- AWS-model inputs for the account-move scenario. -/
def c10_aws : Organization :=
  { root_account_id := "123456789", root_parent_id := some "r-1234" }

/-! ## Association-list lemmas -/

theorem lookupKey_cons (p : String × α) (rest : List (String × α)) (k : String) :
    lookupKey (p :: rest) k = if p.1 = k then some p.2 else lookupKey rest k := rfl

theorem containsKey_eq_any (l : List (String × α)) (k : String) :
    containsKey l k = l.any (fun p => p.1 = k) := by
  induction l with
  | nil => rfl
  | cons p rest ih =>
    simp only [containsKey, List.any_cons, ih]
    by_cases h : p.1 = k <;> simp [h]

theorem containsKey_append (l1 l2 : List (String × α)) (k : String) :
    containsKey (l1 ++ l2) k = (containsKey l1 k || containsKey l2 k) := by
  simp [containsKey_eq_any, List.any_append]

theorem containsKey_iff_mem_keys (l : List (String × α)) (k : String) :
    containsKey l k = true ↔ k ∈ keysOf l := by
  simp [containsKey_eq_any, List.any_eq_true, keysOf, List.mem_map]

theorem lookupKey_mapVal {β : Type} (l : List (String × α)) (f : String → α → β)
    (k : String) :
    lookupKey (l.map (fun p => (p.1, f p.1 p.2))) k = (lookupKey l k).map (f k) := by
  induction l with
  | nil => rfl
  | cons p rest ih =>
    simp only [List.map_cons, lookupKey]
    by_cases h : p.1 = k
    · subst h; simp
    · simp [h, ih]

theorem keysOf_mapVal {β : Type} (l : List (String × α)) (f : String → α → β) :
    keysOf (l.map (fun p => (p.1, f p.1 p.2))) = keysOf l := by
  induction l with
  | nil => rfl
  | cons p rest ih => simp [keysOf]

theorem containsKey_mapVal {β : Type} (l : List (String × α)) (f : String → α → β)
    (k : String) :
    containsKey (l.map (fun p => (p.1, f p.1 p.2))) k = containsKey l k := by
  induction l with
  | nil => rfl
  | cons p rest ih => by_cases h : p.1 = k <;> simp [containsKey, h, ih]

theorem lookupKey_append (l1 l2 : List (String × α)) (k : String) :
    lookupKey (l1 ++ l2) k =
      match lookupKey l1 k with
      | some v => some v
      | none => lookupKey l2 k := by
  induction l1 with
  | nil => rfl
  | cons p rest ih => by_cases h : p.1 = k <;> simp [lookupKey, h, ih]

theorem lookupKey_append_single_ne (l : List (String × α)) (x : String) (y : α)
    (k : String) (hk : x ≠ k) :
    lookupKey (l ++ [(x, y)]) k = lookupKey l k := by
  rw [lookupKey_append]
  cases h : lookupKey l k <;> simp [lookupKey, hk]

theorem containsKey_of_lookupKey_some {l : List (String × α)} {k : String} {v : α}
    (h : lookupKey l k = some v) : containsKey l k = true := by
  induction l with
  | nil => simp [lookupKey] at h
  | cons p rest ih =>
    by_cases hp : p.1 = k
    · simp [containsKey, hp]
    · simp only [lookupKey, hp, if_false] at h
      simp [containsKey, hp, ih h]

theorem containsKey_of_mem {l : List (String × α)} {p : String × α} (h : p ∈ l) :
    containsKey l p.1 = true := by
  induction l with
  | nil => simp at h
  | cons q rest ih =>
    rcases List.mem_cons.mp h with h | h
    · subst h; simp [containsKey]
    · by_cases hq : q.1 = p.1 <;> simp [containsKey, hq, ih h]

/-! ## Characterisation of `_generate_orgunit_parent_references` -/

theorem appendOrgunitRef_map (l : List (String × Orgunit)) (g : String → List String)
    (child pk : String) :
    appendOrgunitRef (l.map (fun p => (p.1, p.2.setRefs (g p.1)))) child pk
      = l.map (fun p =>
          (p.1, p.2.setRefs (if p.1 = child then g p.1 ++ [pk] else g p.1))) := by
  unfold appendOrgunitRef
  rw [List.map_map]
  refine List.map_congr_left (fun p _ => ?_)
  by_cases h : p.1 = child <;> simp [Orgunit.setRefs, h]

theorem gen_child_fold (morg : List (String × Orgunit)) (l : List (String × Orgunit))
    (pk : String) (cs : List String) (g : String → List String) :
    cs.foldl
      (fun acc child =>
        if containsKey morg child then appendOrgunitRef acc child pk else acc)
      (l.map (fun p => (p.1, p.2.setRefs (g p.1))))
    = l.map (fun p => (p.1, p.2.setRefs
        (g p.1 ++ (cs.filter (fun c => c == p.1 && containsKey morg c)).map
          (fun _ => pk)))) := by
  induction cs generalizing g with
  | nil => simp
  | cons c cs ih =>
    rw [List.foldl_cons]
    by_cases hc : containsKey morg c
    · rw [if_pos hc, appendOrgunitRef_map,
        ih (fun k => if k = c then g k ++ [pk] else g k)]
      refine List.map_congr_left (fun p _ => ?_)
      by_cases hp : p.1 = c
      · subst hp
        simp [List.filter_cons, hc, List.append_assoc]
      · have : (c == p.1) = false := by
          simp [beq_eq_false_iff_ne]
          exact fun he => hp he.symm
        simp [List.filter_cons, this, hp]
    · rw [if_neg hc, ih g]
      refine List.map_congr_left (fun p _ => ?_)
      have : (c == p.1 && containsKey morg c) = false := by
        simp [hc]
      simp [List.filter_cons, this]

theorem gen_outer_fold (morg : List (String × Orgunit)) (l : List (String × Orgunit))
    (es : List (String × Orgunit)) (g : String → List String) :
    es.foldl
      (fun ous entry =>
        entry.2.child_orgunits.foldl
          (fun acc child =>
            if containsKey morg child then appendOrgunitRef acc child entry.1 else acc)
          ous)
      (l.map (fun p => (p.1, p.2.setRefs (g p.1))))
    = l.map (fun p => (p.1, p.2.setRefs
        (g p.1 ++ es.flatMap (fun q =>
          (q.2.child_orgunits.filter (fun c => c == p.1 && containsKey morg c)).map
            (fun _ => q.1))))) := by
  induction es generalizing g with
  | nil => simp
  | cons e es ih =>
    rw [List.foldl_cons, gen_child_fold morg l e.1 e.2.child_orgunits g,
      ih (fun k =>
        g k ++ (e.2.child_orgunits.filter (fun c => c == k && containsKey morg c)).map
          (fun _ => e.1))]
    refine List.map_congr_left (fun p _ => ?_)
    simp [List.append_assoc]

theorem gen_orgunits (m : Organization) :
    (generate_orgunit_parent_references m).orgunits
      = m.orgunits.map (fun p => (p.1, p.2.setRefs
          (m.orgunits.flatMap (fun q =>
            (q.2.child_orgunits.filter
              (fun c => c == p.1 && containsKey m.orgunits c)).map (fun _ => q.1))))) := by
  have h := gen_outer_fold m.orgunits m.orgunits m.orgunits (fun _ => [])
  simp only [List.nil_append] at h
  unfold generate_orgunit_parent_references
  simpa [Orgunit.setRefs] using h

theorem conditional_filter_eq {α : Type} (l : List String) (k : String)
    (cond : String → Bool) (hk : cond k = true) (v : α) :
    (l.filter (fun c => c == k && cond c)).map (fun _ => v)
      = (l.filter (fun c => c == k)).map (fun _ => v) := by
  congr 1
  refine List.filter_congr (fun c _ => ?_)
  by_cases hc : c = k
  · subst hc; simp [hk]
  · simp [hc]

theorem gen_lookup (m : Organization) (k : String) (ou : Orgunit)
    (h : lookupKey m.orgunits k = some ou) :
    lookupKey (generate_orgunit_parent_references m).orgunits k
      = some (ou.setRefs (parent_orgunits_of m k)) := by
  rw [gen_orgunits,
    lookupKey_mapVal m.orgunits
      (fun k v => v.setRefs
        (m.orgunits.flatMap (fun q =>
          (q.2.child_orgunits.filter
            (fun c => c == k && containsKey m.orgunits c)).map (fun _ => q.1)))) k,
    h]
  have hk : containsKey m.orgunits k = true := containsKey_of_lookupKey_some h
  simp only [Option.map_some']
  congr 1
  unfold parent_orgunits_of
  exact congrArg ou.setRefs (congrArg (List.flatMap m.orgunits)
    (funext fun q => conditional_filter_eq q.2.child_orgunits k _ hk q.1))

/-! ## Characterisation of the account `parent_references` threading -/

theorem foldl_snd {σ τ ι : Type} (l : List ι) (f : σ × τ → ι → σ × τ)
    (g : τ → ι → τ) (hfg : ∀ st x, (f st x).2 = g st.2 x) (st0 : σ × τ) :
    (l.foldl f st0).2 = l.foldl g st0.2 := by
  induction l generalizing st0 with
  | nil => rfl
  | cons x xs ih => rw [List.foldl_cons, List.foldl_cons, ih, hfg]

theorem appendAccountRef_map (l : List (String × Account)) (g : String → List String)
    (accountName nm : String) :
    appendAccountRef (l.map (fun p => (p.1, p.2.setRefs (g p.1)))) accountName nm
      = l.map (fun p =>
          (p.1, p.2.setRefs (if p.1 = accountName then g p.1 ++ [nm] else g p.1))) := by
  unfold appendAccountRef
  rw [List.map_map]
  refine List.map_congr_left (fun p _ => ?_)
  by_cases h : p.1 = accountName <;> simp [Account.setRefs, h]

theorem acc_child_fold (l : List (String × Account)) (nm : String) (ans : List String)
    (g : String → List String) :
    ans.foldl
      (fun accs an =>
        if ¬ containsKey accs an then accs else appendAccountRef accs an nm)
      (l.map (fun p => (p.1, p.2.setRefs (g p.1))))
    = l.map (fun p => (p.1, p.2.setRefs
        (g p.1 ++ (ans.filter (fun c => c == p.1 && containsKey l c)).map
          (fun _ => nm)))) := by
  induction ans generalizing g with
  | nil => simp
  | cons an ans ih =>
    rw [List.foldl_cons]
    have hcm : containsKey (l.map (fun p => (p.1, p.2.setRefs (g p.1)))) an
        = containsKey l an :=
      containsKey_mapVal l (fun k v => v.setRefs (g k)) an
    by_cases hc : containsKey l an
    · rw [if_neg (by simp [hcm, hc]), appendAccountRef_map,
        ih (fun k => if k = an then g k ++ [nm] else g k)]
      refine List.map_congr_left (fun p _ => ?_)
      by_cases hp : p.1 = an
      · subst hp
        simp [List.filter_cons, hc, List.append_assoc]
      · have : (an == p.1) = false := by
          simp [beq_eq_false_iff_ne]
          exact fun he => hp he.symm
        simp [List.filter_cons, this, hp]
    · rw [if_pos (by simp [hcm, hc]), ih g]
      refine List.map_congr_left (fun p _ => ?_)
      have : (an == p.1 && containsKey l an) = false := by
        simp [hc]
      simp [List.filter_cons, this]

theorem acc_outer_fold (l : List (String × Account)) (es : List (String × Orgunit))
    (g : String → List String) :
    es.foldl
      (fun accs entry =>
        entry.2.accounts.foldl
          (fun accs an =>
            if ¬ containsKey accs an then accs else appendAccountRef accs an entry.2.name)
          accs)
      (l.map (fun p => (p.1, p.2.setRefs (g p.1))))
    = l.map (fun p => (p.1, p.2.setRefs
        (g p.1 ++ es.flatMap (fun q =>
          (q.2.accounts.filter (fun c => c == p.1 && containsKey l c)).map
            (fun _ => q.2.name))))) := by
  induction es generalizing g with
  | nil => simp
  | cons e es ih =>
    rw [List.foldl_cons, acc_child_fold l e.2.name e.2.accounts g,
      ih (fun k =>
        g k ++ (e.2.accounts.filter (fun c => c == k && containsKey l c)).map
          (fun _ => e.2.name))]
    refine List.map_congr_left (fun p _ => ?_)
    simp [List.append_assoc]

theorem validate_orgunit_snd (m : Organization) (accs : List (String × Account))
    (ou : Orgunit) :
    (validate_orgunit m accs ou).2
      = ou.accounts.foldl
          (fun accs an =>
            if ¬ containsKey accs an then accs else appendAccountRef accs an ou.name)
          accs := by
  unfold validate_orgunit
  refine foldl_snd ou.accounts _ _ (fun st an => ?_) _
  by_cases h : containsKey st.2 an <;> simp [h]

theorem validate_orgunits_snd (m : Organization) :
    (validate_orgunits m).2
      = m.accounts.map (fun p => (p.1, p.2.setRefs
          (m.orgunits.flatMap (fun q =>
            (q.2.accounts.filter
              (fun c => c == p.1 && containsKey m.accounts c)).map
              (fun _ => q.2.name))))) := by
  unfold validate_orgunits
  rw [foldl_snd m.orgunits
    (fun (st : List (String × List String) × List (String × Account)) entry =>
      let r := validate_orgunit m st.2 entry.2
      (if r.1 = [] then st.1 else st.1 ++ [(entry.1, r.1)], r.2))
    (fun accs entry =>
      entry.2.accounts.foldl
        (fun accs an =>
          if ¬ containsKey accs an then accs else appendAccountRef accs an entry.2.name)
        accs)
    (fun st entry => validate_orgunit_snd m st.2 entry.2)
    ([], initialize_account_parent_references m.accounts)]
  have hinit : initialize_account_parent_references m.accounts
      = m.accounts.map (fun p => (p.1, p.2.setRefs ((fun _ => ([] : List String)) p.1))) := rfl
  rw [hinit, acc_outer_fold m.accounts m.orgunits (fun _ => [])]
  simp

theorem flatMap_setRefs_map {β : Type} (l : List (String × Orgunit))
    (f : String → List String) (g : String × Orgunit → List β)
    (hg : ∀ p, g (p.1, p.2.setRefs (f p.1)) = g p) :
    (l.map (fun p => (p.1, p.2.setRefs (f p.1)))).flatMap g = l.flatMap g := by
  induction l with
  | nil => rfl
  | cons p rest ih => simp only [List.map_cons, List.flatMap_cons, hg, ih]

theorem validate_snd_accounts (m : Organization) :
    (validate m).2.accounts
      = m.accounts.map (fun p => (p.1, p.2.setRefs
          (m.orgunits.flatMap (fun q =>
            (q.2.accounts.filter
              (fun c => c == p.1 && containsKey m.accounts c)).map
              (fun _ => q.2.name))))) := by
  show (validate_orgunits (generate_orgunit_parent_references m)).2 = _
  rw [validate_orgunits_snd]
  have haccs : (generate_orgunit_parent_references m).accounts = m.accounts := rfl
  rw [haccs, gen_orgunits]
  refine List.map_congr_left (fun p _ => ?_)
  refine congrArg (fun refs => (p.1, p.2.setRefs refs)) ?_
  exact flatMap_setRefs_map m.orgunits
    (fun k => m.orgunits.flatMap (fun q =>
      (q.2.child_orgunits.filter
        (fun c => c == k && containsKey m.orgunits c)).map (fun _ => q.1)))
    (fun q => (q.2.accounts.filter
      (fun c => c == p.1 && containsKey m.accounts c)).map (fun _ => q.2.name))
    (fun q => rfl)

theorem validate_lookup_account (m : Organization) (a : String) (acc : Account)
    (h : lookupKey (validate m).2.accounts a = some acc) :
    ∃ acc0, lookupKey m.accounts a = some acc0
      ∧ acc = acc0.setRefs (referencing_orgunits m a) := by
  rw [validate_snd_accounts,
    lookupKey_mapVal m.accounts
      (fun k v => v.setRefs
        (m.orgunits.flatMap (fun q =>
          (q.2.accounts.filter (fun c => c == k && containsKey m.accounts c)).map
            (fun _ => q.2.name)))) a] at h
  cases h0 : lookupKey m.accounts a with
  | none => rw [h0] at h; simp at h
  | some acc0 =>
    rw [h0] at h
    simp only [Option.map_some', Option.some.injEq] at h
    have hk : containsKey m.accounts a = true := containsKey_of_lookupKey_some h0
    refine ⟨acc0, rfl, ?_⟩
    rw [← h]
    unfold referencing_orgunits
    exact congrArg acc0.setRefs (congrArg (List.flatMap m.orgunits)
      (funext fun q => conditional_filter_eq q.2.accounts a _ hk q.2.name))

/-! ## Lookup in the per-entity problems dicts -/

theorem probs_fold_lookup_notmem {β : Type} (f : β → List String) (a : String)
    (entries : List (String × β)) (h : a ∉ keysOf entries) (pm : List (String × List String)) :
    lookupKey
      (entries.foldl
        (fun pm e => if f e.2 = [] then pm else pm ++ [(e.1, f e.2)]) pm) a
      = lookupKey pm a := by
  induction entries generalizing pm with
  | nil => rfl
  | cons e rest ih =>
    have hne : e.1 ≠ a := by
      intro he; exact h (by simp [keysOf, he])
    have hrest : a ∉ keysOf rest := by
      intro hr; exact h (by simp [keysOf] at hr ⊢; right; exact hr)
    rw [List.foldl_cons, ih hrest]
    by_cases hf : f e.2 = []
    · rw [if_pos hf]
    · rw [if_neg hf, lookupKey_append_single_ne _ _ _ _ hne]

theorem probs_fold_lookup {β : Type} (f : β → List String) (a : String) (v : β)
    (entries : List (String × β)) (hnd : (keysOf entries).Nodup)
    (hl : lookupKey entries a = some v) (pm : List (String × List String))
    (hpm : lookupKey pm a = none) :
    lookupKey
      (entries.foldl
        (fun pm e => if f e.2 = [] then pm else pm ++ [(e.1, f e.2)]) pm) a
      = (if f v = [] then none else some (f v)) := by
  induction entries generalizing pm with
  | nil => simp [lookupKey] at hl
  | cons e rest ih =>
    rw [show keysOf (e :: rest) = e.1 :: keysOf rest from rfl, List.nodup_cons] at hnd
    have hnd1 : e.1 ∉ keysOf rest := hnd.1
    have hnd2 : (keysOf rest).Nodup := hnd.2
    by_cases he : e.1 = a
    · have hv : v = e.2 := by
        rw [lookupKey_cons, if_pos he] at hl
        exact (Option.some.injEq _ _ ▸ hl).symm
      subst hv
      rw [List.foldl_cons,
        probs_fold_lookup_notmem f a rest (he ▸ hnd1)]
      by_cases hf : f e.2 = []
      · rw [if_pos hf, if_pos hf, hpm]
      · rw [if_neg hf, if_neg hf, lookupKey_append, hpm]
        simp [lookupKey, he]
    · rw [lookupKey_cons, if_neg he] at hl
      rw [List.foldl_cons]
      refine ih hnd2 hl _ ?_
      by_cases hf : f e.2 = []
      · rw [if_pos hf]; exact hpm
      · rw [if_neg hf, lookupKey_append_single_ne _ _ _ _ he, hpm]

/-- Embeds `_validate_policies_on_entity` only appends problems. -/
theorem validate_policies_on_entity_append (m : Organization)
    (entityPolicies : List String) (problems : List String) :
    ∃ extra, validate_policies_on_entity m entityPolicies problems = problems ++ extra := by
  induction entityPolicies generalizing problems with
  | nil => exact ⟨[], by simp [validate_policies_on_entity]⟩
  | cons p rest ih =>
    unfold validate_policies_on_entity at ih ⊢
    rw [List.foldl_cons]
    by_cases hc : ¬ containsKey m.policies p ∧ p ∉ policies_aws_managed
    · rw [if_pos hc]
      obtain ⟨extra, hex⟩ := ih (problems ++ ["references missing policy " ++ p])
      exact ⟨("references missing policy " ++ p) :: extra,
        by rw [hex, List.append_assoc]; rfl⟩
    · rw [if_neg hc]
      exact ih problems

theorem lookup_opt_entry_ne (c : Prop) [Decidable c] (k1 : String)
    (v1 : List (String × List String)) (X : List (String × List (String × List String)))
    (k : String) (h : k1 ≠ k) :
    lookupKey ((if c then [] else [(k1, v1)]) ++ X) k = lookupKey X k := by
  by_cases hc : c <;> simp [hc, lookupKey_append, lookupKey, h]

/-- The problems dict of `validate`, written out. -/
theorem validate_fst_eq (m : Organization) :
    (validate m).1 =
      (if (validate_orgunits (generate_orgunit_parent_references m)).1 = [] then []
       else [("orgunits", (validate_orgunits (generate_orgunit_parent_references m)).1)])
      ++ (if validate_accounts (validate m).2 = [] then []
          else [("accounts", validate_accounts (validate m).2)])
      ++ (if validate_stacksets (validate m).2 = [] then []
          else [("stacks", validate_stacksets (validate m).2)]) := rfl

theorem validate_fst_lookup_accounts (m : Organization) :
    lookupKey (validate m).1 "accounts"
      = (if validate_accounts (validate m).2 = [] then none
         else some (validate_accounts (validate m).2)) := by
  rw [validate_fst_eq, List.append_assoc,
    lookup_opt_entry_ne _ _ _ _ _ (by decide)]
  by_cases h2 : validate_accounts (validate m).2 = []
  · rw [if_pos h2, if_pos h2]
    by_cases h3 : validate_stacksets (validate m).2 = [] <;>
      simp [h3, lookupKey_append, lookupKey]
  · rw [if_neg h2, if_neg h2]
    simp [lookupKey_append, lookupKey]

theorem validate_snd_keys (m : Organization) :
    keysOf (validate m).2.accounts = keysOf m.accounts := by
  rw [validate_snd_accounts]
  exact keysOf_mapVal m.accounts
    (fun k v => v.setRefs
      (m.orgunits.flatMap (fun q =>
        (q.2.accounts.filter (fun c => c == k && containsKey m.accounts c)).map
          (fun _ => q.2.name))))

theorem validate_snd_root (m : Organization) :
    (validate m).2.root_account_id = m.root_account_id := rfl

/-- The problem list `validate` records for an account key present in the
model. -/
theorem validate_account_problems_eq (m : Organization)
    (hnd : (keysOf m.accounts).Nodup) (a : String) (acc : Account)
    (h : lookupKey (validate m).2.accounts a = some acc)
    (hne : validate_account (validate m).2 acc ≠ []) :
    accountProblems (validate m).1 a = validate_account (validate m).2 acc := by
  have hnd2 : (keysOf (validate m).2.accounts).Nodup := by
    rw [validate_snd_keys]; exact hnd
  have hAP : lookupKey (validate_accounts (validate m).2) a
      = (if validate_account (validate m).2 acc = [] then none
         else some (validate_account (validate m).2 acc)) :=
    probs_fold_lookup (validate_account (validate m).2) a acc
      (validate m).2.accounts hnd2 h [] rfl
  rw [if_neg hne] at hAP
  have hAPne : validate_accounts (validate m).2 ≠ [] := by
    intro hempty
    rw [hempty] at hAP
    exact Option.noConfusion hAP
  unfold accountProblems
  rw [validate_fst_lookup_accounts, if_neg hAPne]
  simp [hAP]

/-- Claim C6: in a validated model, an account with zero parent references
that is not the root account is recorded `orphaned`; an account with more
than one parent reference is recorded as referenced by multiple orgunits,
listing the referencing orgunit names, in discovery order, joined by
commas.  The account's `parent_references` computed by `validate` are
exactly the names of the orgunits listing it as a child, in dict order. -/
theorem claim_c6_account_validation (m : Organization)
    (hnd : (keysOf m.accounts).Nodup) (a : String) (acc : Account)
    (h : lookupKey (validate m).2.accounts a = some acc) :
    acc.parent_references = referencing_orgunits m a
    ∧ (acc.parent_references = [] → acc.account_id ≠ some m.root_account_id →
        "orphaned" ∈ accountProblems (validate m).1 a)
    ∧ (1 < acc.parent_references.length →
        ("referenced as a child of multiple orgunits: "
            ++ String.intercalate ", " acc.parent_references)
          ∈ accountProblems (validate m).1 a) := by
  obtain ⟨acc0, h0, hacc⟩ := validate_lookup_account m a acc h
  have hrefs : acc.parent_references = referencing_orgunits m a := by
    rw [hacc]; rfl
  refine ⟨hrefs, ?_, ?_⟩
  · intro hr hid
    have hbranch : validate_account (validate m).2 acc
        = validate_policies_on_entity (validate m).2 (acc.policies.getD []) ["orphaned"] := by
      unfold validate_account
      have hcond : acc.parent_references = []
          ∧ ¬ acc.account_id = some (validate m).2.root_account_id := ⟨hr, hid⟩
      rw [if_pos hcond]
    obtain ⟨extra, hex⟩ :=
      validate_policies_on_entity_append (validate m).2 (acc.policies.getD []) ["orphaned"]
    have hmem : "orphaned" ∈ validate_account (validate m).2 acc := by
      rw [hbranch, hex]; exact List.mem_append_left _ (by simp)
    rw [validate_account_problems_eq m hnd a acc h (List.ne_nil_of_mem hmem)]
    exact hmem
  · intro hl
    have hrne : ¬ acc.parent_references = [] := by
      intro hr; rw [hr] at hl; simp at hl
    have hbranch : validate_account (validate m).2 acc
        = validate_policies_on_entity (validate m).2 (acc.policies.getD [])
            ["referenced as a child of multiple orgunits: "
              ++ String.intercalate ", " acc.parent_references] := by
      unfold validate_account
      rw [if_neg (fun hc => hrne hc.1), if_pos hl]
    obtain ⟨extra, hex⟩ :=
      validate_policies_on_entity_append (validate m).2 (acc.policies.getD [])
        ["referenced as a child of multiple orgunits: "
          ++ String.intercalate ", " acc.parent_references]
    have hmem : ("referenced as a child of multiple orgunits: "
        ++ String.intercalate ", " acc.parent_references)
          ∈ validate_account (validate m).2 acc := by
      rw [hbranch, hex]; exact List.mem_append_left _ (by simp)
    rw [validate_account_problems_eq m hnd a acc h (List.ne_nil_of_mem hmem)]
    exact hmem

/-- Witness for C6 on the repo's multiple-parents scenario: `shared` is
referenced by `ou_a` and `ou_b`, `orphan` by nobody. -/
theorem claim_c6_account_validation_witness :
    ("referenced as a child of multiple orgunits: ou_a, ou_b"
        ∈ accountProblems (validate two_parents_org).1 "shared")
      ∧ "orphaned" ∈ accountProblems (validate two_parents_org).1 "orphan" := by
  constructor
  · have h := claim_c6_account_validation two_parents_org (by decide) "shared"
      { name := "shared", parent_references := ["ou_a", "ou_b"] } (by rfl)
    have hm := h.2.2 (by decide)
    simpa using hm
  · have h := claim_c6_account_validation two_parents_org (by decide) "orphan"
      { name := "orphan" } (by rfl)
    exact h.2.1 (by decide) (by decide)

/-! ## The hierarchy resolver claims -/

/-- Claim C7: the top level of the resolved hierarchy holds exactly the
orgunits that no orgunit lists as a child (equivalently, whose regenerated
`parent_references` are empty), keyed by name in dict order; and every
account with zero parent references whose account id is not the root
account id appears under `ORPHANED_ACCOUNTS`. -/
theorem claim_c7_hierarchy_top_level_and_orphans (m : Organization) :
    ((get_orgunit_hierarchy m).root_orgunits.map Prod.fst
      = (m.orgunits.filter (fun p =>
          m.orgunits.all (fun q => ! q.2.child_orgunits.contains p.1))).map
          (fun p => p.2.name))
    ∧ (∀ p ∈ m.accounts, p.2.parent_references = [] →
        p.2.account_id ≠ some m.root_account_id →
        p.2.name ∈ ((get_orgunit_hierarchy m).orphaned_accounts.getD [])) := by
  constructor
  · show ((orgunits_to_hierarchy m).map Prod.fst) = _
    unfold orgunits_to_hierarchy
    rw [List.map_map]
    show List.map id (((generate_orgunit_parent_references m).orgunits.filter
        (fun p => p.2.parent_references = [])).map (fun p => p.2.name)) = _
    rw [List.map_id, gen_orgunits, List.filter_map, List.map_map]
    show List.map (fun p : String × Orgunit => p.2.name) _ = _
    refine congrArg (List.map (fun p : String × Orgunit => p.2.name)) ?_
    refine List.filter_congr (fun p hp => ?_)
    have hcp : containsKey m.orgunits p.1 = true := containsKey_of_mem hp
    show decide ((p.2.setRefs _).parent_references = []) = _
    have hadds :
        (m.orgunits.flatMap (fun q =>
          (q.2.child_orgunits.filter
            (fun c => c == p.1 && containsKey m.orgunits c)).map (fun _ => q.1)))
        = parent_orgunits_of m p.1 := by
      unfold parent_orgunits_of
      exact congrArg (List.flatMap m.orgunits)
        (funext fun q => conditional_filter_eq q.2.child_orgunits p.1 _ hcp q.1)
    rw [show (p.2.setRefs
        (m.orgunits.flatMap (fun q =>
          (q.2.child_orgunits.filter
            (fun c => c == p.1 && containsKey m.orgunits c)).map
            (fun _ => q.1)))).parent_references
        = parent_orgunits_of m p.1 from hadds]
    rw [Bool.eq_iff_iff]
    simp only [decide_eq_true_eq, List.all_eq_true, parent_orgunits_of,
      List.flatMap_eq_nil_iff, List.map_eq_nil_iff, List.filter_eq_nil_iff,
      beq_iff_eq, Bool.not_eq_true', ← Bool.not_eq_true, List.contains,
      List.elem_iff]
    constructor
    · intro hall q hq hmem
      exact hall q hq p.1 hmem rfl
    · intro hall q hq c hc he
      exact hall q hq (he ▸ hc)
  · intro p hp hrefs hid
    have hcond : (p.2.parent_references.length = 0
        ∧ ¬ p.2.account_id = some m.root_account_id) := by
      constructor
      · rw [hrefs]; rfl
      · exact hid
    have hmemf : p ∈ m.accounts.filter (fun p =>
        decide (p.2.parent_references.length = 0
          ∧ ¬ p.2.account_id = some m.root_account_id)) :=
      List.mem_filter.mpr ⟨hp, by simp [hcond]⟩
    have hmem : p.2.name ∈ find_orphaned_accounts m := by
      unfold find_orphaned_accounts
      exact List.mem_map.mpr ⟨p, hmemf, rfl⟩
    have hne : find_orphaned_accounts m ≠ [] := List.ne_nil_of_mem hmem
    unfold get_orgunit_hierarchy
    simp only [ne_eq]
    rw [if_pos (by simpa using hne)]
    simpa using hmem

/-- Witness for C7: in the multiple-parents scenario the account `orphan`
(zero parent references, not the root account) lands under
`ORPHANED_ACCOUNTS`. -/
theorem claim_c7_hierarchy_witness :
    "orphan" ∈ ((get_orgunit_hierarchy two_parents_org).orphaned_accounts.getD []) := by
  exact (claim_c7_hierarchy_top_level_and_orphans two_parents_org).2
    ("orphan", { name := "orphan" }) (by decide) rfl (by decide)

/-! ## Idempotence of `validate` -/

theorem validate_snd_eq (m : Organization) :
    (validate m).2
      = { generate_orgunit_parent_references m with
          accounts := (validate_orgunits (generate_orgunit_parent_references m)).2 } := rfl

theorem initialize_setRefs_map (l : List (String × Account)) (f : String → List String) :
    initialize_account_parent_references
        (l.map (fun p => (p.1, p.2.setRefs (f p.1))))
      = initialize_account_parent_references l := by
  unfold initialize_account_parent_references
  rw [List.map_map]
  exact List.map_congr_left (fun p _ => rfl)

theorem gen_orgunits_of_setRefs_map (X : Organization) (l : List (String × Orgunit))
    (f : String → List String)
    (hX : X.orgunits = l.map (fun p => (p.1, p.2.setRefs (f p.1)))) :
    (generate_orgunit_parent_references X).orgunits
      = l.map (fun p => (p.1, p.2.setRefs
          (l.flatMap (fun q =>
            (q.2.child_orgunits.filter
              (fun c => c == p.1 && containsKey l c)).map (fun _ => q.1))))) := by
  have hck : ∀ c, containsKey (l.map (fun p => (p.1, p.2.setRefs (f p.1)))) c
      = containsKey l c :=
    fun c => containsKey_mapVal l (fun k v => v.setRefs (f k)) c
  rw [gen_orgunits, hX, List.map_map]
  simp only [hck]
  refine List.map_congr_left (fun p _ => ?_)
  rw [show ((fun p => (p.1, p.2.setRefs
      ((l.map (fun p => (p.1, p.2.setRefs (f p.1)))).flatMap (fun q =>
        (q.2.child_orgunits.filter (fun c => c == p.1 && containsKey l c)).map
          (fun _ => q.1)))))
      ∘ (fun p => (p.1, p.2.setRefs (f p.1)))) p
    = (p.1, p.2.setRefs
        ((l.map (fun p => (p.1, p.2.setRefs (f p.1)))).flatMap (fun q =>
          (q.2.child_orgunits.filter (fun c => c == p.1 && containsKey l c)).map
            (fun _ => q.1)))) from rfl]
  rw [flatMap_setRefs_map l f
    (fun q => (q.2.child_orgunits.filter
      (fun c => c == p.1 && containsKey l c)).map (fun _ => q.1)) (fun q => rfl)]

/-- Running `_generate_orgunit_parent_references` on an already validated
model changes nothing. -/
theorem gen_fixedpoint (m : Organization) :
    generate_orgunit_parent_references ((validate m).2) = (validate m).2 := by
  have horg : ((validate m).2).orgunits
      = m.orgunits.map (fun p => (p.1, p.2.setRefs
          (m.orgunits.flatMap (fun q =>
            (q.2.child_orgunits.filter
              (fun c => c == p.1 && containsKey m.orgunits c)).map
              (fun _ => q.1))))) := by
    show (generate_orgunit_parent_references m).orgunits = _
    exact gen_orgunits m
  have hres : (generate_orgunit_parent_references ((validate m).2)).orgunits
      = ((validate m).2).orgunits := by
    rw [gen_orgunits_of_setRefs_map ((validate m).2) m.orgunits
      (fun k => m.orgunits.flatMap (fun q =>
        (q.2.child_orgunits.filter
          (fun c => c == k && containsKey m.orgunits c)).map (fun _ => q.1)))
      horg]
    exact horg.symm
  have hgen : generate_orgunit_parent_references ((validate m).2)
      = { (validate m).2 with
          orgunits := (generate_orgunit_parent_references ((validate m).2)).orgunits } := rfl
  rw [hgen, hres]

/-- Running `_validate_orgunits` on an already validated model yields the
same problems and the same account references. -/
theorem validate_orgunits_fixedpoint (m : Organization) :
    validate_orgunits ((validate m).2)
      = validate_orgunits (generate_orgunit_parent_references m) := by
  have hinit : initialize_account_parent_references ((validate m).2).accounts
      = initialize_account_parent_references
          (generate_orgunit_parent_references m).accounts := by
    rw [validate_snd_accounts]
    exact initialize_setRefs_map m.accounts
      (fun k => m.orgunits.flatMap (fun q =>
        (q.2.accounts.filter
          (fun c => c == k && containsKey m.accounts c)).map (fun _ => q.2.name)))
  unfold validate_orgunits
  exact congrArg
    (fun s => List.foldl
      (fun (st : List (String × List String) × List (String × Account)) entry =>
        let r := validate_orgunit (generate_orgunit_parent_references m) st.2 entry.2
        (if r.1 = [] then st.1 else st.1 ++ [(entry.1, r.1)], r.2))
      ([], s) (generate_orgunit_parent_references m).orgunits)
    hinit

theorem validate_fixedpoint_snd (m : Organization) :
    (validate ((validate m).2)).2 = (validate m).2 := by
  rw [validate_snd_eq ((validate m).2), gen_fixedpoint, validate_orgunits_fixedpoint]
  rfl

theorem validate_fixedpoint (m : Organization) :
    validate ((validate m).2) = validate m := by
  have h2 := validate_fixedpoint_snd m
  have h1 : (validate ((validate m).2)).1 = (validate m).1 := by
    rw [validate_fst_eq ((validate m).2), validate_fst_eq m, gen_fixedpoint,
      validate_orgunits_fixedpoint, h2]
  exact Prod.ext h1 h2

theorem gen_lookup_inv (m : Organization) (k : String) (ou : Orgunit)
    (h : lookupKey (generate_orgunit_parent_references m).orgunits k = some ou) :
    ∃ ou0, lookupKey m.orgunits k = some ou0
      ∧ ou = ou0.setRefs (parent_orgunits_of m k) := by
  rw [gen_orgunits,
    lookupKey_mapVal m.orgunits
      (fun k v => v.setRefs
        (m.orgunits.flatMap (fun q =>
          (q.2.child_orgunits.filter
            (fun c => c == k && containsKey m.orgunits c)).map (fun _ => q.1)))) k] at h
  cases h0 : lookupKey m.orgunits k with
  | none => rw [h0] at h; simp at h
  | some ou0 =>
    rw [h0] at h
    simp only [Option.map_some', Option.some.injEq] at h
    have hk : containsKey m.orgunits k = true := containsKey_of_lookupKey_some h0
    refine ⟨ou0, rfl, ?_⟩
    rw [← h]
    unfold parent_orgunits_of
    exact congrArg ou0.setRefs (congrArg (List.flatMap m.orgunits)
      (funext fun q => conditional_filter_eq q.2.child_orgunits k _ hk q.1))

/-- Claim C9: `validate` is idempotent — a second run on the untouched
validated model returns the same problems dict and leaves the model (in
particular all `parent_references`) unchanged; the references it leaves are
exactly the entities currently listing each account/orgunit as a child,
reset on every pass rather than accumulated. -/
theorem claim_c9_validate_idempotent (m : Organization) :
    validate ((validate m).2) = validate m
    ∧ (∀ a acc, lookupKey (validate m).2.accounts a = some acc →
        acc.parent_references = referencing_orgunits m a)
    ∧ (∀ k ou, lookupKey (validate m).2.orgunits k = some ou →
        ou.parent_references = parent_orgunits_of m k) := by
  refine ⟨validate_fixedpoint m, ?_, ?_⟩
  · intro a acc h
    obtain ⟨acc0, _, hacc⟩ := validate_lookup_account m a acc h
    rw [hacc]; rfl
  · intro k ou h
    have h' : lookupKey (generate_orgunit_parent_references m).orgunits k = some ou := h
    obtain ⟨ou0, _, hou⟩ := gen_lookup_inv m k ou h'
    rw [hou]; rfl

/-- Witness for C9 on the multiple-parents scenario. -/
theorem claim_c9_validate_idempotent_witness :
    validate ((validate two_parents_org).2) = validate two_parents_org
    ∧ ({ name := "shared", parent_references := ["ou_a", "ou_b"] }
        : Account).parent_references = referencing_orgunits two_parents_org "shared" := by
  have h := claim_c9_validate_idempotent two_parents_org
  refine ⟨h.1, ?_⟩
  exact h.2.1 "shared" { name := "shared", parent_references := ["ou_a", "ou_b"] } (by rfl)

/-! ## Claim C1: missing orgunit-cycle detection (code defect) -/

/-- Claim C1 (code defect): the claim says a model whose `child_orgunits`
edges contain a cycle makes validation raise `OrgunitHierarchyCycle`.  The
source's `Organization.validate` performs no cycle detection whatsoever:
`OrgunitHierarchyCycleException` is declared in
`cumulogenesis/exceptions.py` but raised nowhere, and the `_find_path`
helper that `testing-orgunit-graphs.py` invokes does not exist on
`Organization`.  Evaluating the embedded validator on an orgunit that lists
itself as its own child: validation terminates normally, reports no
problems at all, and merely records the orgunit as its own parent
reference. -/
theorem claim_c1_validate_reports_no_cycle :
    (validate self_cycle_org).1 = []
    ∧ (lookupKey (validate self_cycle_org).2.orgunits "a").map
        Orgunit.parent_references = some ["a"] :=
  ⟨rfl, rfl⟩

/-! ## Claim C4: account creation (code defect in the FailureReason path) -/

/-- Claim C4 (code defect): polling sleeps a fixed 15 between rounds until
no account is `IN_PROGRESS` (the trace below shows two 15-unit sleeps, one
per round) and terminal states map `SUCCEEDED → created`,
`FAILED → failed`, anything else → `unknown` — but the `failed` change does
NOT carry the `FailureReason`, although the provider's terminal response
for `account_b` carries one (second conjunct): the source guards the
attachment with `if status == 'failed'`, comparing the response dict with a
string, which is always false. -/
theorem claim_c4_create_accounts_failed_reason_dropped :
    create_accounts c4_org_accounts ["account_a", "account_b", "account_c"]
        c4_create_response c4_describe_response 10
      = .ok ([("account_a", { change := "created" }),
              ("account_b", { change := "failed", reason := none }),
              ("account_c", { change := "unknown" })], [15, 15])
    ∧ c4_describe_response 0 "req-account_b"
        = { Id := "req-account_b", State := "FAILED",
            FailureReason := some "EMAIL_ALREADY_EXISTS" } :=
  ⟨rfl, rfl⟩

/-! ## Claim C5: orgunit deletion absorbs every client error -/

/-- Counterexample to C5 as stated: a delete failing with `AccessDenied` —
not a "not found" kind — is also absorbed and returns `None` instead of
being surfaced to the caller. -/
theorem claim_c5_counterexample :
    delete_orgunit c5_aws_orgunits "ou_a"
        (fun _ => .error { code := "AccessDenied" }) = .ok none := rfl

/-- Claim C5 as amended: every `botocore` client error on the delete —
`ResourceNotFound` or any other code — is treated as a benign no-op
returning `None`; a successful delete returns the deletion change dict.
(Only non-client-error exceptions propagate.) -/
theorem claim_c5_delete_orgunit_absorbs_client_errors
    (aws_orgunits : List (String × Orgunit)) (orgunit_name : String)
    (ou : Orgunit) (oid : String)
    (h1 : lookupKey aws_orgunits orgunit_name = some ou) (h2 : ou.id = some oid)
    (delete_response : String → Except ClientError Unit) :
    (∀ err, delete_response oid = .error err →
      delete_orgunit aws_orgunits orgunit_name delete_response = .ok none)
    ∧ (delete_response oid = .ok () →
      delete_orgunit aws_orgunits orgunit_name delete_response
        = .ok (some { change := "deleted", id := some oid })) := by
  unfold delete_orgunit
  constructor
  · intro err herr
    simp [h1, h2, herr]
  · intro hok
    simp [h1, h2, hok]

/-- Witness for the amended C5 at concrete inputs. -/
theorem claim_c5_delete_orgunit_absorbs_client_errors_witness :
    delete_orgunit c5_aws_orgunits "ou_a"
        (fun _ => .error { code := "ServiceException" }) = .ok none
    ∧ delete_orgunit c5_aws_orgunits "ou_a" (fun _ => .ok ())
        = .ok (some { change := "deleted", id := some "ou-123456" }) := by
  constructor
  · exact (claim_c5_delete_orgunit_absorbs_client_errors c5_aws_orgunits "ou_a"
      { name := "ou_a", id := some "ou-123456" } "ou-123456" rfl rfl
      (fun _ => .error { code := "ServiceException" })).1
      { code := "ServiceException" } rfl
  · exact (claim_c5_delete_orgunit_absorbs_client_errors c5_aws_orgunits "ou_a"
      { name := "ou_a", id := some "ou-123456" } "ou-123456" rfl rfl
      (fun _ => .ok ())).2 rfl

/-! ## Claim C10: account move is skipped when already in place -/

/-- Claim C10: when the account's current parent (the first parent the
provider lists) already equals the resolved destination parent id, no
`move_account` call is issued and the empty change dict is returned. -/
theorem claim_c10_move_account_noop (aws updated : Organization)
    (account_name parent_name : String) (acc : Account) (account_id d : String)
    (rest : List String) (parents_of : String → List String)
    (hdest : resolve_dest_parent_id aws updated parent_name = .ok (some d))
    (hacc : lookupKey updated.accounts account_name = some acc)
    (haid : acc.account_id = some account_id)
    (hparents : parents_of account_id = d :: rest) :
    move_account aws updated account_name parent_name parents_of = .ok ([], []) := by
  unfold move_account
  simp [hdest, hacc, haid, hparents]

/-- Witness for C10: the account already sits under the root parent. -/
theorem claim_c10_move_account_noop_witness :
    move_account c10_aws c10_updated "account_a" "root" (fun _ => ["r-1234"])
      = .ok ([], []) :=
  claim_c10_move_account_noop c10_aws c10_updated "account_a" "root"
    { name := "account_a", account_id := some "987654321" } "987654321" "r-1234" []
    (fun _ => ["r-1234"]) rfl rfl rfl rfl

/-! ## Claim C3: the `organizations` kind of the plan -/

theorem lookupKey_map_ite_ne {α : Type} (l : List (String × α)) (et : String)
    (h : String × α → α) (k : String) (hk : k ≠ et) :
    lookupKey (l.map (fun p => if p.1 = et then (p.1, h p) else p)) k
      = lookupKey l k := by
  induction l with
  | nil => rfl
  | cons p rest ih =>
    have hek : ¬ et = k := fun hc => hk hc.symm
    by_cases hp : p.1 = et
    · have hpk : ¬ p.1 = k := fun hc => hk (hc ▸ hp)
      simp [lookupKey, hp, hpk, hek, ih]
    · by_cases hpk : p.1 = k <;> simp [lookupKey, hp, hpk, hek, hk, ih]

/-- Lookup under the add-kind-then-set-entry pattern shared by
`_add_action_to_report` and `_add_association_to_report` is unchanged at
every other kind. -/
theorem ensure_set_lookup_ne {α : Type} (acts : List (String × α)) (et : String)
    (init : α) (upd : α → α) (k : String) (hk : k ≠ et) :
    lookupKey
      ((if containsKey acts et then acts else acts ++ [(et, init)]).map
        (fun p => if p.1 = et then (p.1, upd p.2) else p)) k
      = lookupKey acts k := by
  by_cases hc : containsKey acts et
  · rw [if_pos hc]
    exact lookupKey_map_ite_ne acts et (fun p => upd p.2) k hk
  · rw [if_neg hc, List.map_append]
    rw [lookupKey_append, lookupKey_map_ite_ne acts et (fun p => upd p.2) k hk]
    have hek : ¬ et = k := fun hc2 => hk hc2.symm
    cases hl : lookupKey acts k <;> simp [lookupKey, hek]

theorem add_action_lookup_ne (r : Report) (et en ac : String)
    (ov nv : Option (List (String × CVal))) (k : String) (hk : k ≠ et) :
    lookupKey (add_action_to_report r et en ac ov nv).actions k
      = lookupKey r.actions k := by
  unfold add_action_to_report
  exact ensure_set_lookup_ne r.actions et [] (fun v => setKey v en
    { action := ac, existing_entity := ov, configured_entity := nv }) k hk

theorem add_association_lookup_ne (r : Report) (et en pn : String) (k : String)
    (hk : k ≠ et ++ "_associations") :
    lookupKey (add_association_to_report r et en pn).actions k
      = lookupKey r.actions k := by
  unfold add_association_to_report
  exact ensure_set_lookup_ne r.actions (et ++ "_associations") []
    (fun v => setKey v en { action := "associate", parent := some pn }) k hk

theorem add_orphaned_problem_actions (r : Report) (an pn : String) :
    (add_orphaned_account_problem_to_report r an pn).actions = r.actions := rfl

theorem foldl_actions_lookup {ι : Type} (l : List ι) (step : Report → ι → Report)
    (k : String) (h : ∀ r x, lookupKey (step r x).actions k = lookupKey r.actions k)
    (r0 : Report) :
    lookupKey ((l.foldl step r0).actions) k = lookupKey r0.actions k := by
  induction l generalizing r0 with
  | nil => rfl
  | cons x xs ih => rw [List.foldl_cons, ih, h]

theorem compare_account_associations_lookup_org (decl aws : Organization) (r : Report) :
    lookupKey (compare_account_associations decl aws r).actions "organizations"
      = lookupKey r.actions "organizations" := by
  unfold compare_account_associations
  rw [foldl_actions_lookup aws.accounts _ "organizations" (fun r x => by
    dsimp only
    split
    · rfl
    · split
      · split
        · rw [add_orphaned_problem_actions,
            add_association_lookup_ne _ _ _ _ _ (by decide)]
        · rfl
      · rfl)]
  rw [foldl_actions_lookup decl.accounts _ "organizations" (fun r x => by
    dsimp only
    split
    · rfl
    · split
      · exact add_association_lookup_ne _ _ _ _ _ (by decide)
      · split
        · exact add_association_lookup_ne _ _ _ _ _ (by decide)
        · rfl)]

theorem compare_accounts_lookup_org (decl aws : Organization) (r : Report) :
    lookupKey (compare_accounts decl aws r).actions "organizations"
      = lookupKey r.actions "organizations" := by
  unfold compare_accounts
  rw [compare_account_associations_lookup_org]
  rw [foldl_actions_lookup aws.accounts _ "organizations" (fun r x => by
    dsimp only
    split
    · rfl
    · rfl)]
  rw [foldl_actions_lookup decl.accounts _ "organizations" (fun r x => by
    dsimp only
    split
    · exact add_action_lookup_ne _ _ _ _ _ _ _ (by decide)
    · split
      · split
        · exact add_action_lookup_ne _ _ _ _ _ _ _ (by decide)
        · rfl
      · rfl)]

theorem compare_orgunit_associations_lookup_org (decl aws : Organization) (r : Report) :
    lookupKey (compare_orgunit_associations decl aws r).actions "organizations"
      = lookupKey r.actions "organizations" := by
  unfold compare_orgunit_associations
  rw [foldl_actions_lookup decl.orgunits _ "organizations" (fun r x => by
    dsimp only
    split
    · exact add_association_lookup_ne _ _ _ _ _ (by decide)
    · split
      · exact add_association_lookup_ne _ _ _ _ _ (by decide)
      · rfl)]

theorem compare_orgunits_lookup_org (decl aws : Organization) (r : Report) :
    lookupKey (compare_orgunits decl aws r).actions "organizations"
      = lookupKey r.actions "organizations" := by
  unfold compare_orgunits
  rw [compare_orgunit_associations_lookup_org]
  rw [foldl_actions_lookup aws.orgunits _ "organizations" (fun r x => by
    split
    · exact add_action_lookup_ne _ _ _ _ _ _ _ (by decide)
    · rfl)]
  rw [foldl_actions_lookup decl.orgunits _ "organizations" (fun r x => by
    dsimp only
    split
    · exact add_action_lookup_ne _ _ _ _ _ _ _ (by decide)
    · split
      · split
        · exact add_action_lookup_ne _ _ _ _ _ _ _ (by decide)
        · rfl
      · rfl)]

theorem compare_policies_lookup_org (decl aws : Organization) (r : Report) :
    lookupKey (compare_policies decl aws r).actions "organizations"
      = lookupKey r.actions "organizations" := by
  unfold compare_policies
  rw [foldl_actions_lookup aws.policies _ "organizations" (fun r x => by
    split
    · split
      · rfl
      · exact add_action_lookup_ne _ _ _ _ _ _ _ (by decide)
    · rfl)]
  rw [foldl_actions_lookup decl.policies _ "organizations" (fun r x => by
    dsimp only
    split
    · rfl
    · split
      · exact add_action_lookup_ne _ _ _ _ _ _ _ (by decide)
      · split
        · split
          · exact add_action_lookup_ne _ _ _ _ _ _ _ (by decide)
          · rfl
        · rfl)]

/-- Counterexample to C3 as stated: the actual organization exists and its
configuration (featureset, root policies) differs from the declared one,
yet the plan contains no `organizations` entry at all — in particular no
`update` action. -/
theorem claim_c3_counterexample :
    c3_actual.orgExists = true
    ∧ get_organization_configuration c3_declared
        ≠ get_organization_configuration c3_actual
    ∧ lookupKey (compare_against_aws_model c3_declared c3_actual).actions
        "organizations" = none :=
  ⟨rfl, by decide, rfl⟩

/-- Claim C3 as amended: the plan's `organizations` kind contains exactly
the `create` action when the actual organization does not exist, and is
entirely absent when it exists — the differ never emits an `update` action
for the organization, whatever the featureset or root-policies drift
(root-policy reconciliation happens during convergence, outside the
plan). -/
theorem claim_c3_organizations_plan (decl actual : Organization) :
    lookupKey (compare_against_aws_model decl actual).actions "organizations"
      = (if actual.orgExists then none
         else some [("organization", { action := "create" })]) := by
  unfold compare_against_aws_model
  by_cases he : actual.orgExists
  · have hgen : (generate_orgunit_parent_references actual).orgExists = true := he
    rw [if_neg (by simp [hgen]), if_pos he]
    rw [compare_policies_lookup_org, compare_orgunits_lookup_org,
      compare_accounts_lookup_org]
    rfl
  · have hgen : (generate_orgunit_parent_references actual).orgExists = false := by
      simpa using he
    rw [if_pos (by simp [hgen]), if_neg he]
    rfl

/-! ## Claim C2: the config round-trip (code defect) -/

theorem mem_setKey_self {α : Type} (l : List (String × α)) (k : String) (v : α) :
    (k, v) ∈ setKey l k v := by
  unfold setKey
  by_cases hc : containsKey l k
  · rw [if_pos hc]
    obtain ⟨x, hx⟩ : ∃ x, (k, x) ∈ l := by
      have hmem := (containsKey_iff_mem_keys l k).mp hc
      simpa [keysOf] using hmem
    refine List.mem_map.mpr ⟨(k, x), hx, ?_⟩
    simp
  · rw [if_neg hc]
    simp

theorem construct_error_of_bad_key (accepted : List String)
    (mapping : List (String × CVal)) (k : String) (v : CVal)
    (hmem : (k, v) ∈ mapping) (hk : k ∉ accepted) :
    ∃ e, construct_with_kwargs accepted mapping = .error e := by
  unfold construct_with_kwargs
  cases hf : mapping.find? (fun p => decide (p.1 ∉ accepted)) with
  | some p => exact ⟨.typeError p.1, rfl⟩
  | none =>
    exfalso
    have := List.find?_eq_none.mp hf (k, v) hmem
    simp at this
    exact hk this

/-- Claim C2 (code defect): the round-trip
`Dump(Load(Dump(M))) = Dump(M)` cannot hold for any model whose document
contains orgunits, because `Load` itself crashes.
`_load_orgunits_from_orgunit` passes a `parent_orgunit` keyword to
`OrganizationalUnit(**...)`, whose `__init__` does not accept it, so every
orgunit construction raises `TypeError` (second conjunct: the construction
step fails for EVERY orgunit mapping and parent value).  In particular the
spec's own valid end-to-end document (scenario 1) fails to load, while its
`accounts` entry loads fine — the defect is specific to orgunits.  The
repo's integration test `test_valid_model_configuration_2018_05_04`
asserts exactly this round-trip and cannot pass. -/
theorem claim_c2_roundtrip_load_crashes :
    load_organization_from_config c2_valid_config
        = .error (.typeError "parent_orgunit")
    ∧ ∀ (orgunit : List (String × CVal)) (parent_orgunit : CVal),
        ∃ e, construct_with_kwargs orgunit_init_parameters
          ((setKey orgunit "parent_orgunit" parent_orgunit).filter
            (fun p => p.1 ≠ "orgunits")) = .error e := by
  refine ⟨rfl, fun orgunit parent_orgunit => ?_⟩
  refine construct_error_of_bad_key _ _ "parent_orgunit" parent_orgunit ?_ (by decide)
  exact List.mem_filter.mpr
    ⟨mem_setKey_self orgunit "parent_orgunit" parent_orgunit, rfl⟩

/-! ## Claim C8: the one-of check on policy documents -/

theorem foldEntries_ok_of_entries (f : CVal → Except PyErr (List (String × CVal)))
    (pre : List CVal) (h : ∀ v ∈ pre, ∃ i, f v = .ok i)
    (acc0 : List (List (String × CVal))) :
    ∃ acc, pre.foldl
      (fun st v =>
        match st with
        | .error e => .error e
        | .ok acc =>
          match f v with
          | .error e => .error e
          | .ok item => .ok (acc ++ [item])) (Except.ok acc0) = .ok acc := by
  induction pre generalizing acc0 with
  | nil => exact ⟨acc0, rfl⟩
  | cons v vs ih =>
    obtain ⟨i, hi⟩ := h v (by simp)
    rw [List.foldl_cons, hi]
    exact ih (fun w hw => h w (by simp [hw])) (acc0 ++ [i])

theorem foldEntries_error_state (f : CVal → Except PyErr (List (String × CVal)))
    (l : List CVal) (e : PyErr) :
    l.foldl
      (fun st v =>
        match st with
        | .error e => .error e
        | .ok acc =>
          match f v with
          | .error e => .error e
          | .ok item => .ok (acc ++ [item])) (Except.error e) = .error e := by
  induction l with
  | nil => rfl
  | cons v vs ih => rw [List.foldl_cons]; exact ih

/-- The first policy entry whose processing raises propagates its exception
out of `_load_policies`. -/
theorem load_policies_error_of_entry (pre rest : List CVal) (policyVal : CVal)
    (e : PyErr) (hpre : ∀ v ∈ pre, ∃ i, load_policy_entry v = .ok i)
    (hp : load_policy_entry policyVal = .error e) :
    load_policies (pre ++ policyVal :: rest) = .error e := by
  unfold load_policies foldEntries
  rw [List.foldl_append]
  obtain ⟨acc, hacc⟩ := foldEntries_ok_of_entries load_policy_entry pre hpre []
  rw [hacc, List.foldl_cons, hp]
  rw [foldEntries_error_state load_policy_entry rest e]

theorem one_of_found_eq (doc : List (String × CVal)) (b1 b2 : Bool)
    (h1 : containsKey doc "location" = b1) (h2 : containsKey doc "content" = b2) :
    ((policy_document_parameters.map ParamSchema.name).dedup).filter
        (fun n => containsKey doc n)
      = (if b1 then ["location"] else []) ++ (if b2 then ["content"] else []) := by
  have hded : (policy_document_parameters.map ParamSchema.name).dedup
      = ["location", "content"] := rfl
  rw [hded]
  cases b1 <;> cases b2 <;> simp [List.filter, h1, h2]

/-- Claim C8: the one-of validation of `policy.document` raises
`MultipleParametersSpecified` exactly when both `location` and `content`
are present, raises a missing-required-parameter error when neither is,
and otherwise reduces to the type check of the single present key; at the
loading level, a policy entry whose document carries both (resp. neither)
keys makes `_load_policies` raise accordingly, provided every earlier entry
loads cleanly. -/
theorem claim_c8_policy_document_one_of (doc : List (String × CVal)) (parent : String) :
    (containsKey doc "location" = true → containsKey doc "content" = true →
      validate_one_of_parameters doc parent policy_document_parameters
        = .error (.multipleParametersSpecified "policy.document"))
    ∧ (containsKey doc "location" = false → containsKey doc "content" = false →
      validate_one_of_parameters doc parent policy_document_parameters
        = .error (.missingRequiredParameter "location or content" "policy.document"))
    ∧ (containsKey doc "location" = true → containsKey doc "content" = false →
      validate_one_of_parameters doc parent policy_document_parameters
        = validate_is_type doc "location" parent .strTy)
    ∧ (containsKey doc "location" = false → containsKey doc "content" = true →
      validate_one_of_parameters doc parent policy_document_parameters
        = validate_is_type doc "content" parent .dictTy)
    ∧ (∀ (pre rest : List CVal) (policy : List (String × CVal)),
        (∀ v ∈ pre, ∃ i, load_policy_entry v = .ok i) →
        validate_each_parameter policy "policy" policy_parameters = .ok () →
        lookupKey policy "document" = some (.dict doc) →
        (containsKey doc "location" = true ∧ containsKey doc "content" = true →
          load_policies (pre ++ .dict policy :: rest)
            = .error (.multipleParametersSpecified "policy.document"))
        ∧ (containsKey doc "location" = false ∧ containsKey doc "content" = false →
          load_policies (pre ++ .dict policy :: rest)
            = .error (.missingRequiredParameter "location or content"
                "policy.document"))) := by
  have hmult : ∀ par, containsKey doc "location" = true →
      containsKey doc "content" = true →
      validate_one_of_parameters doc par policy_document_parameters
        = .error (.multipleParametersSpecified "policy.document") := by
    intro par h1 h2
    unfold validate_one_of_parameters
    rw [one_of_found_eq doc true true h1 h2]
    rfl
  have hmiss : ∀ par, containsKey doc "location" = false →
      containsKey doc "content" = false →
      validate_one_of_parameters doc par policy_document_parameters
        = .error (.missingRequiredParameter "location or content" "policy.document") := by
    intro par h1 h2
    unfold validate_one_of_parameters
    rw [one_of_found_eq doc false false h1 h2]
    rfl
  refine ⟨hmult parent, hmiss parent, ?_, ?_, ?_⟩
  · intro h1 h2
    unfold validate_one_of_parameters
    rw [one_of_found_eq doc true false h1 h2]
    rfl
  · intro h1 h2
    unfold validate_one_of_parameters
    rw [one_of_found_eq doc false true h1 h2]
    rfl
  · intro pre rest policy hpre hval hdoc
    constructor
    · rintro ⟨h1, h2⟩
      refine load_policies_error_of_entry pre rest (.dict policy) _ hpre ?_
      unfold load_policy_entry
      simp only [hval, hdoc]
      rw [hmult "policy.document" h1 h2]
    · rintro ⟨h1, h2⟩
      refine load_policies_error_of_entry pre rest (.dict policy) _ hpre ?_
      unfold load_policy_entry
      simp only [hval, hdoc]
      rw [hmiss "policy.document" h1 h2]

/-- Witness for C8 at concrete inputs: a document with both keys, one with
neither (each also exercised through `_load_policies`), and one with
exactly `content`, which passes the one-of check. -/
theorem claim_c8_policy_document_one_of_witness :
    load_policies [c8_both_policy]
        = .error (.multipleParametersSpecified "policy.document")
    ∧ load_policies [c8_neither_policy]
        = .error (.missingRequiredParameter "location or content" "policy.document")
    ∧ validate_one_of_parameters [("content", CVal.dict [])] "policy.document"
        policy_document_parameters = .ok () := by
  refine ⟨?_, ?_, ?_⟩
  · have h := (claim_c8_policy_document_one_of
      [("location", .str "policy.json"),
       ("content", .dict [("Version", .str "2012-10-17")])] "policy.document").2.2.2.2
      [] [] [("name", .str "policy_a"), ("description", .str "both keys"),
             ("document", .dict [("location", .str "policy.json"),
                                 ("content", .dict [("Version", .str "2012-10-17")])])]
      (by intro v hv; simp at hv) rfl rfl
    exact h.1 ⟨rfl, rfl⟩
  · have h := (claim_c8_policy_document_one_of
      [("Version", .str "2012-10-17")] "policy.document").2.2.2.2
      [] [] [("name", .str "policy_b"), ("description", .str "no keys"),
             ("document", .dict [("Version", .str "2012-10-17")])]
      (by intro v hv; simp at hv) rfl rfl
    exact h.2 ⟨rfl, rfl⟩
  · have h := (claim_c8_policy_document_one_of
      [("content", CVal.dict [])] "policy.document").2.2.2.1 rfl rfl
    rw [h]
    rfl

end Cumulogenesis
